import Mathlib

/-!
Shallow embedding of the analytics aggregation core of
`src/netlify/functions/analytics-data.js` (the serverless function that turns
LinkedIn snapshot / changelog payloads into dashboard summaries), together
with proofs about the claims of the specification.

Modelling conventions, used uniformly below:
* JavaScript timestamps (`capturedAt`, `Date.now()`) are milliseconds since
  the Unix epoch, modelled as `Int`; the local timezone is taken to be UTC, so
  the calendar day of a timestamp is its floor-division by 86400000.
* `toLocaleDateString('en-US', \x7bmonth: 'short', day: 'numeric'\x7d)` keeps
  only month and day; it is modelled as the (month, day) pair of the civil
  date (`monthDay`).  The year-less label is faithful to the source, which is
  why it is not injective across years.
* `toLocaleDateString()` with no arguments formats the full civil date
  (month, day and year); two such labels are equal exactly when the calendar
  days are equal, so this label is modelled by the day number itself.
* JavaScript objects used as dictionaries (`hashtagCounts`, `engagementMap`,
  `typeCounts`, ...) are modelled as insertion-ordered association lists;
  `Object.entries` / `Object.values` return insertion order.  The keys used by
  the source are hashtags (always starting with '#'), category names and URN
  identifiers, none of which are array-index strings, which is the regime in
  which JavaScript property order is insertion order.
* `Array.prototype.sort` is a stable sort (ECMAScript 2019); it is modelled by
  a stable insertion sort (`sortDescBy` / `sortAscBy`).
* Fallible field accesses (`a?.b`) are modelled with `Option`; the JavaScript
  `x || y` idiom on strings (which treats `""` as missing) is modelled by
  `jsOr`.
* The two `new Date()` calls of `calculateConnectionsGrowth` are modelled as
  the same instant `now`, and `new Date(string)` parsing of connection dates
  is modelled by an explicit parameter `pdate : String → Int`.
-/

/-- Calendar day number of a millisecond timestamp (floor division, UTC). -/
def dayOfMs (t : Int) : Int := Int.fdiv t 86400000

/-- Civil (Gregorian) date `(year, month, day)` of a day number counted from
1970-01-01, following the standard days-to-civil conversion. -/
def civilFromDays (z0 : Int) : Int × Int × Int :=
  let z := z0 + 719468
  let era := Int.fdiv z 146097
  let doe := z - era * 146097
  let yoe := Int.fdiv (doe - Int.fdiv doe 1460 + Int.fdiv doe 36524 - Int.fdiv doe 146096) 365
  let y := yoe + era * 400
  let doy := doe - (365 * yoe + Int.fdiv yoe 4 - Int.fdiv yoe 100)
  let mp := Int.fdiv (5 * doy + 2) 153
  let d := doy - Int.fdiv (153 * mp + 2) 5 + 1
  let m := mp + (if mp < 10 then 3 else -9)
  (y + (if m ≤ 2 then 1 else 0), m, d)

/-- The `en-US` month/day label (`toLocaleDateString('en-US', ...)` with only
`month` and `day`): the (month, day) pair of the civil date, with no year. -/
def monthDay (z : Int) : Int × Int := ((civilFromDays z).2.1, (civilFromDays z).2.2)

/-- JavaScript `x || y` on an optional string: `undefined` and `""` fall
through to the default. -/
def jsOr (o : Option String) (dflt : String) : String :=
  match o with
  | some s => if s = "" then dflt else s
  | none => dflt

/-- JavaScript `String.prototype.includes`: substring containment test. -/
def charsInclude (pat : List Char) : List Char → Bool
  | [] => pat.isEmpty
  | c :: rest => pat.isPrefixOf (c :: rest) || charsInclude pat rest

/-- `s.includes(pat)` for strings. -/
def strIncludes (s pat : String) : Bool := charsInclude pat.data s.data

/-- Word character of the JavaScript regular-expression class `\w`. -/
def wordChar (c : Char) : Bool := c.isAlpha || c.isDigit || c = '_'

/-- Left-to-right scan for the maximal tokens matched by the global regular
expression `#[\w]+`: a `#` followed by at least one word character, the run of
word characters taken greedily.  The fuel argument is the length of the
remaining input, which bounds the recursion. -/
def scanHashtags : Nat → List Char → List String
  | 0, _ => []
  | _, [] => []
  | fuel + 1, c :: rest =>
    if c = '#' then
      let run := rest.takeWhile wordChar
      if run = [] then scanHashtags fuel rest
      else String.mk ('#' :: run) :: scanHashtags fuel (rest.dropWhile wordChar)
    else scanHashtags fuel rest

/-- `content.match(/#[\w]+/g) || []` of the source. -/
def extractHashtags (s : String) : List String := scanHashtags s.data.length s.data

/-- Replace the first element satisfying `p` by its image under `f`; the rest
of the list is unchanged.  This models `array.find(p)` followed by in-place
mutation of the found element. -/
def updateFirst (p : α → Bool) (f : α → α) : List α → List α
  | [] => []
  | x :: xs => if p x then f x :: xs else x :: updateFirst p f xs

/-- Stable insertion keeping elements with a strictly greater-or-equal value in
front: the position the ECMAScript stable sort gives a new element under the
comparator `(a, b) => val b - val a` (descending). -/
def insertDescBy (val : α → Nat) (x : α) : List α → List α
  | [] => [x]
  | y :: ys => if val x ≤ val y then y :: insertDescBy val x ys else x :: y :: ys

/-- Stable sort, descending by `val`: the order produced by the ECMAScript
stable `sort((a, b) => val b - val a)`. -/
def sortDescBy (val : α → Nat) (l : List α) : List α :=
  l.foldl (fun acc x => insertDescBy val x acc) []

/-- Stable insertion, ascending by an integer key. -/
def insertAscBy (val : α → Int) (x : α) : List α → List α
  | [] => [x]
  | y :: ys => if val y ≤ val x then y :: insertAscBy val x ys else x :: y :: ys

/-- Stable sort, ascending by an integer key: the order produced by the
ECMAScript stable `sort((a, b) => val a - val b)`. -/
def sortAscBy (val : α → Int) (l : List α) : List α :=
  l.foldl (fun acc x => insertAscBy val x acc) []

/-! ## Data model (section 3 of the specification) -/

/-- One media item of a UGC share (`content.media[i]`). -/
structure MediaItem where
  mediaType : Option String
deriving DecidableEq, Repr

/-- `shareCommentary` of a UGC share. -/
structure Commentary where
  text : Option String
deriving DecidableEq, Repr

/-- `specificContent["com.linkedin.ugc.ShareContent"]` of a post activity. -/
structure ShareContent where
  media : Option (List MediaItem)
  shareCommentary : Option Commentary
deriving DecidableEq, Repr

/-- The `activity` payload of a changelog event. -/
structure EventActivity where
  specificContent : Option ShareContent
  object : Option String
deriving DecidableEq, Repr

/-- ActivityEvent: one changelog entry. -/
structure ChangelogElement where
  resourceName : String
  method : String
  capturedAt : Int
  actor : Option String
  owner : Option String
  resourceId : String
  activity : Option EventActivity
deriving DecidableEq, Repr

/-- The changelog payload: `changelogData.elements`. -/
structure ChangelogData where
  elements : Option (List ChangelogElement)
deriving DecidableEq, Repr

/-- `changelogData?.elements || []`. -/
def changelogElements (cd : Option ChangelogData) : List ChangelogElement :=
  ((cd.bind (·.elements)).getD [])

/-- A connections snapshot row.  `connectedOnSpaced` models the key
`"Connected On"`, `connectedOn` the key `connectedOn`. -/
structure ConnectionRow where
  connectedOnSpaced : Option String
  connectedOn : Option String
  industry : Option String
  position : Option String
  location : Option String
deriving DecidableEq, Repr

/-- A posts (MEMBER_SHARE_INFO) snapshot row. -/
structure ShareInfoRow where
  shareCommentary : Option String
deriving DecidableEq, Repr

/-- A snapshot payload: `data?.elements?.[0]?.snapshotData || []`. -/
structure SnapshotData (ρ : Type) where
  elements : Option (List (Option (List ρ)))
deriving DecidableEq

/-- `data?.elements?.[0]?.snapshotData || []`: first element's rows. -/
def snapshotRows (sd : Option (SnapshotData ρ)) : List ρ :=
  ((((sd.bind (·.elements)).bind (·.head?)).bind id).getD [])

/-- Connections payload. -/
def ConnectionsData := SnapshotData ConnectionRow
deriving instance DecidableEq for ConnectionsData

/-- Posts snapshot payload. -/
def PostsData := SnapshotData ShareInfoRow
deriving instance DecidableEq for PostsData

/-! ## Changelog event predicates -/

/-- A post-creation event: `resourceName === "ugcPosts" && method === "CREATE"`. -/
def isPostCreate (e : ChangelogElement) : Bool :=
  decide (e.resourceName = "ugcPosts" ∧ e.method = "CREATE")

/-- A like-creation event. -/
def isLikeCreate (e : ChangelogElement) : Bool :=
  decide (e.resourceName = "socialActions/likes" ∧ e.method = "CREATE")

/-- A comment-creation event. -/
def isCommentCreate (e : ChangelogElement) : Bool :=
  decide (e.resourceName = "socialActions/comments" ∧ e.method = "CREATE")

/-- A share-creation event. -/
def isShareCreate (e : ChangelogElement) : Bool :=
  decide (e.resourceName = "socialActions/shares" ∧ e.method = "CREATE")

/-- The counter an event belongs to, following the if/else-if chain of the
source (posts, likes, comments, shares; anything else is ignored). -/
inductive EventKind where
  | post | like | comment | shareK
deriving DecidableEq, Repr

/-- Classify an event by the if/else-if chain of the bucketing loops. -/
def eventKind (e : ChangelogElement) : Option EventKind :=
  if isPostCreate e then some .post
  else if isLikeCreate e then some .like
  else if isCommentCreate e then some .comment
  else if isShareCreate e then some .shareK
  else none

/-- `post.activity?.specificContent?.["com.linkedin.ugc.ShareContent"]`. -/
def shareContentOf (e : ChangelogElement) : Option ShareContent :=
  e.activity.bind (·.specificContent)

/-- `...?.shareCommentary?.text`. -/
def commentaryTextOf (e : ChangelogElement) : Option String :=
  ((shareContentOf e).bind (·.shareCommentary)).bind (·.text)

/-! ## Trend bucketer (`calculatePostsEngagementsTrend`, lines 125-169) -/

/-- The day-bucket accumulator of the trend loop (date label plus the four
zero-initialised counters). -/
structure TrendBucket where
  date : Int × Int
  posts : Nat
  likes : Nat
  comments : Nat
  shares : Nat
deriving DecidableEq, Repr

/-- One projected entry of the trend output (lines 162-168).  Note the
projection keeps `posts`, `likes`, `comments` and the derived
`totalEngagement`, and does not carry the `shares` counter. -/
structure TrendEntry where
  date : Int × Int
  posts : Nat
  likes : Nat
  comments : Nat
  totalEngagement : Nat
deriving DecidableEq, Repr

/-- The keys of the object literal produced by the final projection of
`calculatePostsEngagementsTrend` (lines 162-168), in source order. -/
def trendProjectionKeys : List String :=
  ["date", "posts", "likes", "comments", "totalEngagement"]

/-- `timeRange === "7d" ? 7 : timeRange === "30d" ? 30 : 90`. -/
def trendDays (tr : String) : Nat :=
  if tr = "7d" then 7 else if tr = "30d" then 30 else 90

/-- The dense zero-filled bucket sequence: one bucket per day, oldest first,
ending today (the loop `for (i = days - 1; i >= 0; i--)`). -/
def initialTrendRange (days : Nat) (today : Int) : List TrendBucket :=
  (List.range days).map fun j : Nat => ⟨monthDay (today - days + 1 + (j : Int)), 0, 0, 0, 0⟩

/-- The month/day label of an event's capture timestamp. -/
def elementDayLabel (e : ChangelogElement) : Int × Int := monthDay (dayOfMs e.capturedAt)

/-- Increment the counter matching the event's kind (the if/else-if chain in
the `elements.forEach` of the trend loop). -/
def bumpTrendBucket (e : ChangelogElement) (d : TrendBucket) : TrendBucket :=
  match eventKind e with
  | some .post => { d with posts := d.posts + 1 }
  | some .like => { d with likes := d.likes + 1 }
  | some .comment => { d with comments := d.comments + 1 }
  | some .shareK => { d with shares := d.shares + 1 }
  | none => d

/-- The accumulation loop: for each event find the bucket with the event's
day label and bump it (events with no matching label are ignored). -/
def trendFold (es : List ChangelogElement) (range : List TrendBucket) : List TrendBucket :=
  es.foldl
    (fun acc e => updateFirst (fun d => decide (d.date = elementDayLabel e)) (bumpTrendBucket e) acc)
    range

/-- `calculatePostsEngagementsTrend(changelogData, timeRange)`; `now` is the
millisecond timestamp of the request. -/
def calculatePostsEngagementsTrend (cd : Option ChangelogData) (tr : String) (now : Int) :
    List TrendEntry :=
  let elements := changelogElements cd
  let days := trendDays tr
  let dateRange := initialTrendRange days (dayOfMs now)
  let filled := trendFold elements dateRange
  filled.map fun d => ⟨d.date, d.posts, d.likes, d.comments, d.likes + d.comments + d.shares⟩

/-! ## Connections growth bucketer (`calculateConnectionsGrowth`, lines 171-209) -/

/-- One entry of the connections growth output. -/
structure GrowthEntry where
  date : Int × Int
  totalConnections : Nat
  newConnections : Nat
deriving DecidableEq, Repr

/-- `conn["Connected On"] || conn.connectedOn`, as an optional non-empty
string (the row-filter keeps a row exactly when this is present). -/
def connDateVal (c : ConnectionRow) : Option String :=
  match c.connectedOnSpaced with
  | some s =>
    if s = "" then
      match c.connectedOn with
      | some t => if t = "" then none else some t
      | none => none
    else some s
  | none =>
    match c.connectedOn with
    | some t => if t = "" then none else some t
    | none => none

/-- The calendar day of a connection row's connect date, under the date
parser `pdate`. -/
def connDay (pdate : String → Int) (c : ConnectionRow) : Int :=
  dayOfMs (pdate ((connDateVal c).getD ""))

/-- The growth loop `for (d = startDate; d <= endDate; d.setDate(...))`:
`n` iterations starting at day `d`, threading the cumulative count. -/
def growthLoop (conns : List ConnectionRow) (pdate : String → Int) (cum : Nat) (d : Int) :
    Nat → List GrowthEntry
  | 0 => []
  | n + 1 =>
    let cnt := (conns.filter fun c => decide (connDay pdate c = d)).length
    ⟨monthDay d, cum + cnt, cnt⟩ :: growthLoop conns pdate (cum + cnt) (d + 1) n

/-- `calculateConnectionsGrowth(connectionsData, timeRange)`.  The loop runs
from `today - days` to `today` inclusive, hence `days + 1` iterations. -/
def calculateConnectionsGrowth (cd : Option ConnectionsData) (tr : String)
    (pdate : String → Int) (now : Int) : List GrowthEntry :=
  let connections := snapshotRows cd
  let sorted := sortAscBy (fun c => pdate ((connDateVal c).getD ""))
    (connections.filter fun c => (connDateVal c).isSome)
  let days := trendDays tr
  growthLoop sorted pdate 0 (dayOfMs now - days) (days + 1)

/-! ## Post-type classifier (`calculatePostTypesBreakdown`, lines 211-247) -/

/-- The five category counters, declared in source order. -/
structure TypeCounts where
  textOnly : Nat
  image : Nat
  video : Nat
  article : Nat
  externalLink : Nat
deriving DecidableEq, Repr

/-- The declared type of the first media item with the source's fallback:
`media[0].mediaType || "IMAGE"`. -/
def firstMediaType (m : MediaItem) : String := jsOr m.mediaType "IMAGE"

/-- The category assigned to a post-creation event by the classifier's
if/else-if chain (lines 224-242). -/
def classifyPost (e : ChangelogElement) : String :=
  let content := shareContentOf e
  match content.bind (·.media) with
  | some (m :: _) =>
    let mediaType := firstMediaType m
    if strIncludes mediaType "VIDEO" then "Video"
    else if strIncludes mediaType "IMAGE" then "Image"
    else "External Link"
  | _ =>
    if strIncludes (((content.bind (·.shareCommentary)).bind (·.text)).getD "") "http" then
      "External Link"
    else "Text Only"

/-- Increment the counter named by a category. -/
def bumpCategory (tc : TypeCounts) (name : String) : TypeCounts :=
  if name = "Video" then { tc with video := tc.video + 1 }
  else if name = "Image" then { tc with image := tc.image + 1 }
  else if name = "External Link" then { tc with externalLink := tc.externalLink + 1 }
  else if name = "Text Only" then { tc with textOnly := tc.textOnly + 1 }
  else tc

/-- One step of the `posts.forEach` classification loop. -/
def postTypeStep (tc : TypeCounts) (e : ChangelogElement) : TypeCounts :=
  bumpCategory tc (classifyPost e)

/-- `Object.entries(typeCounts)` in declaration order. -/
def typeCountEntries (tc : TypeCounts) : List (String × Nat) :=
  [("Text Only", tc.textOnly), ("Image", tc.image), ("Video", tc.video),
   ("Article", tc.article), ("External Link", tc.externalLink)]

/-- `calculatePostTypesBreakdown(changelogData)`: classify each post-creation
event, then keep only the categories with a strictly positive count. -/
def calculatePostTypesBreakdown (cd : Option ChangelogData) : List (String × Nat) :=
  let posts := (changelogElements cd).filter isPostCreate
  let tc := posts.foldl postTypeStep ⟨0, 0, 0, 0, 0⟩
  (typeCountEntries tc).filter fun kv => decide (0 < kv.2)

/-! ## Hashtag ranking (`calculateTopHashtags`, lines 249-279) -/

/-- `counts[k] = (counts[k] || 0) + 1` on an insertion-ordered dictionary. -/
def bumpTally (m : List (String × Nat)) (k : String) : List (String × Nat) :=
  match m with
  | [] => [(k, 1)]
  | (k', v) :: rest => if k' = k then (k', v + 1) :: rest else (k', v) :: bumpTally rest k

/-- Dictionary lookup with default 0. -/
def tallyGet (m : List (String × Nat)) (k : String) : Nat :=
  (((m.find? fun kv => decide (kv.1 = k)).map (·.2)).getD 0)

/-- Tally every hashtag occurrence of every text produced by `f` over `l`
(the nested `forEach` loops of the source). -/
def tallyHashtags (f : ρ → String) (l : List ρ) (m : List (String × Nat)) :
    List (String × Nat) :=
  l.foldl (fun m r => (extractHashtags (f r)).foldl bumpTally m) m

/-- The snapshot text of a posts-snapshot row: `post.ShareCommentary || ""`. -/
def snapshotCommentary (r : ShareInfoRow) : String := jsOr r.shareCommentary ""

/-- The changelog text of a post-creation event (line 268). -/
def changelogCommentary (e : ChangelogElement) : String := (commentaryTextOf e).getD ""

/-- The combined hashtag tally: snapshot posts first, then the changelog
post-creation events, merged into one dictionary before ranking. -/
def hashtagTally (pd : Option PostsData) (cd : Option ChangelogData) : List (String × Nat) :=
  let m1 := tallyHashtags snapshotCommentary (snapshotRows pd) []
  tallyHashtags changelogCommentary ((changelogElements cd).filter isPostCreate) m1

/-- `calculateTopHashtags(postsData, changelogData)`: sort the tally
descending by count (stable) and keep the first ten entries. -/
def calculateTopHashtags (pd : Option PostsData) (cd : Option ChangelogData) :
    List (String × Nat) :=
  (sortDescBy (·.2) (hashtagTally pd cd)).take 10

/-- Modelled from the claim's words: the number of occurrences of `h` among
the tokens matching `#` plus word characters across the snapshot posts'
commentary and the changelog posts' commentary combined. -/
def specHashtagOccurrences (pd : Option PostsData) (cd : Option ChangelogData)
    (h : String) : Nat :=
  ((snapshotRows pd).map (fun r => extractHashtags (snapshotCommentary r))).flatten.count h +
    (((changelogElements cd).filter isPostCreate).map
      (fun e => extractHashtags (changelogCommentary e))).flatten.count h

/-! ## Engagement joiner (`calculateEngagementPerPost`, lines 281-325) -/

/-- The per-post summary seeded from a post-creation event. -/
structure PostSummary where
  postId : String
  content : String
  likes : Nat
  comments : Nat
  shares : Nat
  createdAt : Int
deriving DecidableEq, Repr

/-- The projected output entry: the summary spread plus the derived
`totalEngagement` and the truncated content. -/
structure PostOut where
  postId : String
  content : String
  likes : Nat
  comments : Nat
  shares : Nat
  createdAt : Int
  totalEngagement : Nat
deriving DecidableEq, Repr

/-- `engagementMap[key] = value`: insert-or-replace keeping the key's original
position (JavaScript property order). -/
def emUpsert (m : List (String × PostSummary)) (k : String) (v : PostSummary) :
    List (String × PostSummary) :=
  match m with
  | [] => [(k, v)]
  | (k', v') :: rest => if k' = k then (k, v) :: rest else (k', v') :: emUpsert rest k v

/-- The summary seeded for a post-creation event (lines 292-299). -/
def seedSummary (p : ChangelogElement) : PostSummary :=
  ⟨p.resourceId, jsOr (commentaryTextOf p) "Post content", 0, 0, 0, p.capturedAt⟩

/-- Increment the counter matching an engagement event's kind (the if/else-if
chain at lines 306-312; post-creation events fall through unchanged). -/
def bumpSummary (e : ChangelogElement) (s : PostSummary) : PostSummary :=
  match eventKind e with
  | some .like => { s with likes := s.likes + 1 }
  | some .comment => { s with comments := s.comments + 1 }
  | some .shareK => { s with shares := s.shares + 1 }
  | _ => s

/-- The identifier an event's engagement is attributed to:
`element.activity?.object`, with the falsy empty string collapsed to `none`
(the `if (postId && ...)` guard). -/
def keyOfEvent (e : ChangelogElement) : Option String :=
  match e.activity.bind (·.object) with
  | some p => if p = "" then none else some p
  | none => none

/-- One step of the engagement-counting loop (lines 303-314): if the event
references a known post identifier, bump that post's summary. -/
def emBump (m : List (String × PostSummary)) (e : ChangelogElement) :
    List (String × PostSummary) :=
  match e.activity.bind (·.object) with
  | none => m
  | some pid =>
    if pid ≠ "" ∧ (m.any fun kv => decide (kv.1 = pid)) then
      updateFirst (fun kv => decide (kv.1 = pid)) (fun kv => (kv.1, bumpSummary e kv.2)) m
    else m

/-- The seeding pass: one map entry per post-creation event, keyed by
`resourceId` (later duplicates replace earlier ones). -/
def seedMap (userPosts : List ChangelogElement) : List (String × PostSummary) :=
  userPosts.foldl (fun m p => emUpsert m p.resourceId (seedSummary p)) []

/-- The projection of lines 318-322: spread, derived total, truncation of the
content to 50 characters with an ellipsis marker when longer. -/
def projectSummary (p : PostSummary) : PostOut :=
  ⟨p.postId, p.content.take 50 ++ (if 50 < p.content.length then "..." else ""),
    p.likes, p.comments, p.shares, p.createdAt, p.likes + p.comments + p.shares⟩

/-- `calculateEngagementPerPost(changelogData)`. -/
def calculateEngagementPerPost (cd : Option ChangelogData) : List PostOut :=
  let elements := changelogElements cd
  let userPosts := elements.filter isPostCreate
  let seeded := seedMap userPosts
  let counted := elements.foldl emBump seeded
  let projected := (counted.map (·.2)).map projectSummary
  (sortDescBy (·.totalEngagement) projected).take 10

/-! ## Messages bucketer (`calculateMessagesSentReceived`, lines 327-366) -/

/-- The internal bucket: the full-date label (modelled by the day number) plus
the two counters. -/
structure MessageBucket where
  date : Int
  sent : Nat
  received : Nat
deriving DecidableEq, Repr

/-- The projected output entry: the label re-formatted as month/day. -/
structure MessageEntry where
  date : Int × Int
  sent : Nat
  received : Nat
deriving DecidableEq, Repr

/-- `e.owner` is truthy (present and non-empty). -/
def ownerTruthy (e : ChangelogElement) : Bool :=
  match e.owner with
  | some s => decide (s ≠ "")
  | none => false

/-- The inferred current user: the `owner` of the first event that has one
(`elements.find(e => e.owner)?.owner`). -/
def currentUserOf (elements : List ChangelogElement) : Option String :=
  (elements.find? ownerTruthy).bind (·.owner)

/-- The dense zero-filled 30-day bucket sequence, oldest first, ending today. -/
def initialMessageRange (today : Int) : List MessageBucket :=
  (List.range 30).map fun j : Nat => ⟨today - 29 + (j : Int), 0, 0⟩

/-- Bump a bucket for one message: `sent` when the actor is the inferred
current user, `received` otherwise. -/
def bumpMessageBucket (uid : Option String) (e : ChangelogElement) (d : MessageBucket) :
    MessageBucket :=
  if e.actor = uid then { d with sent := d.sent + 1 } else { d with received := d.received + 1 }

/-- The message-counting loop over the filtered events. -/
def messageFold (uid : Option String) (es : List ChangelogElement)
    (range : List MessageBucket) : List MessageBucket :=
  es.foldl
    (fun acc e =>
      updateFirst (fun d => decide (d.date = dayOfMs e.capturedAt)) (bumpMessageBucket uid e) acc)
    range

/-- The filter of line 347: `resourceName === "messages"` and captured within
the last 30 days. -/
def isRecentMessage (now : Int) (e : ChangelogElement) : Bool :=
  decide (e.resourceName = "messages" ∧ now - 2592000000 ≤ e.capturedAt)

/-- `calculateMessagesSentReceived(changelogData)`. -/
def calculateMessagesSentReceived (cd : Option ChangelogData) (now : Int) :
    List MessageEntry :=
  let elements := changelogElements cd
  let uid := currentUserOf elements
  let dateRange := initialMessageRange (dayOfMs now)
  let filled := messageFold uid (elements.filter (isRecentMessage now)) dateRange
  filled.map fun d => ⟨monthDay d.date, d.sent, d.received⟩

/-! ## Audience distribution (`calculateAudienceDistribution`, lines 368-406) -/

/-- The three ranked lists of the audience distribution. -/
structure AudienceDistribution where
  industries : List (String × Nat)
  positions : List (String × Nat)
  locations : List (String × Nat)
deriving DecidableEq, Repr

/-- A connection's industry with the `"Unknown"` default. -/
def industryOf (c : ConnectionRow) : String := jsOr c.industry "Unknown"

/-- A connection's position with the `"Unknown"` default. -/
def positionOf (c : ConnectionRow) : String := jsOr c.position "Unknown"

/-- A connection's location with the `"Unknown"` default. -/
def locationOf (c : ConnectionRow) : String := jsOr c.location "Unknown"

/-- The single `connections.forEach` loop building the three tallies. -/
def audienceTallies (conns : List ConnectionRow) :
    List (String × Nat) × List (String × Nat) × List (String × Nat) :=
  conns.foldl
    (fun t c =>
      (bumpTally t.1 (industryOf c), bumpTally t.2.1 (positionOf c),
        bumpTally t.2.2 (locationOf c)))
    ([], [], [])

/-- Rank a tally: stable descending sort by count, first ten entries. -/
def rankTally (m : List (String × Nat)) : List (String × Nat) :=
  (sortDescBy (·.2) m).take 10

/-- `calculateAudienceDistribution(connectionsData)`. -/
def calculateAudienceDistribution (cd : Option ConnectionsData) : AudienceDistribution :=
  let t := audienceTallies (snapshotRows cd)
  ⟨rankTally t.1, rankTally t.2.1, rankTally t.2.2⟩

/-! ## Response assembler (`handler`, lines 1-84) -/

/-- The query-string parameters of the request. -/
structure QueryParams where
  timeRange : Option String
deriving DecidableEq

/-- The inbound HTTP event: method, the `authorization` header and the
query-string parameters (absent when `queryStringParameters` is null). -/
structure HandlerEvent where
  httpMethod : String
  authorization : Option String
  queryStringParameters : Option QueryParams
deriving DecidableEq

/-- The six upstream resources, each `none` when its fetch failed
(`fetchLinkedInData` returns null on any failure). -/
structure Upstream where
  profileData : Option Unit
  connectionsData : Option ConnectionsData
  postsData : Option PostsData
  changelogData : Option ChangelogData
  skillsData : Option Unit
  positionsData : Option Unit

/-- The empty environment: every upstream fetch failed. -/
def emptyUpstream : Upstream := ⟨none, none, none, none, none, none⟩

/-- The keys of the static `getScoreImpacts()` reference table. -/
def scoreImpactKeys : List String :=
  ["profileCompleteness", "postingActivity", "engagementQuality", "networkGrowth",
   "audienceRelevance", "contentDiversity", "engagementRate", "mutualInteractions",
   "profileVisibility", "professionalBrand"]

/-- The analytics object assembled at lines 46-57. -/
structure Analytics where
  postsEngagementsTrend : List TrendEntry
  connectionsGrowth : List GrowthEntry
  postTypesBreakdown : List (String × Nat)
  topHashtags : List (String × Nat)
  engagementPerPost : List PostOut
  messagesSentReceived : List MessageEntry
  audienceDistribution : AudienceDistribution
  scoreImpacts : List String
  timeRange : String
  lastUpdated : Int
deriving DecidableEq

/-- A response body: either the serialized analytics or an error object. -/
inductive ResponseBody where
  | analytics (a : Analytics)
  | errorMessage (msg : String)
deriving DecidableEq

/-- The handler's observable result: status code, body, and the upstream
requests that were issued (empty when the handler returns early). -/
structure HandlerResult where
  statusCode : Nat
  body : Option ResponseBody
  fetches : List String
deriving DecidableEq

/-- `const { timeRange = "30d" } = event.queryStringParameters || {}`. -/
def requestTimeRange (q : Option QueryParams) : String :=
  ((q.map (·.timeRange)).getD none).getD "30d"

/-- The six upstream requests issued by the `Promise.all` at lines 34-41. -/
def upstreamRequests : List String :=
  ["PROFILE", "CONNECTIONS", "MEMBER_SHARE_INFO", "CHANGELOG", "SKILLS", "POSITIONS"]

/-- The assembled analytics (lines 46-57). -/
def assembleAnalytics (u : Upstream) (timeRange : String) (pdate : String → Int)
    (now : Int) : Analytics :=
  ⟨calculatePostsEngagementsTrend u.changelogData timeRange now,
    calculateConnectionsGrowth u.connectionsData timeRange pdate now,
    calculatePostTypesBreakdown u.changelogData,
    calculateTopHashtags u.postsData u.changelogData,
    calculateEngagementPerPost u.changelogData,
    calculateMessagesSentReceived u.changelogData now,
    calculateAudienceDistribution u.connectionsData,
    scoreImpactKeys, timeRange, now⟩

/-- `handler(event, context)`: CORS preflight, the authorization guard
(`!authorization`, which also rejects an empty header), then the parallel
fetches and the assembly.  All aggregators are total, so the catch branch of
the source is unreachable in the model. -/
def handler (event : HandlerEvent) (u : Upstream) (pdate : String → Int) (now : Int) :
    HandlerResult :=
  if event.httpMethod = "OPTIONS" then ⟨200, none, []⟩
  else
    let timeRange := requestTimeRange event.queryStringParameters
    match event.authorization with
    | none => ⟨401, some (.errorMessage "No authorization token"), []⟩
    | some tok =>
      if tok = "" then ⟨401, some (.errorMessage "No authorization token"), []⟩
      else
        ⟨200, some (.analytics (assembleAnalytics u timeRange pdate now)), upstreamRequests⟩

/-! ## Generic lemmas: `updateFirst` and bucket folds -/

theorem updateFirst_map_key (key : α → κ) (p : α → Bool) (f : α → α)
    (hf : ∀ a, key (f a) = key a) :
    ∀ l : List α, (updateFirst p f l).map key = l.map key
  | [] => rfl
  | x :: xs => by
    by_cases h : p x
    · simp [updateFirst, h, hf]
    · simp [updateFirst, h, updateFirst_map_key key p f hf xs]

theorem updateFirst_eq_map [DecidableEq κ] (key : α → κ) (c : κ) (f : α → α)
    (hf : ∀ a, key (f a) = key a) :
    ∀ l : List α, (l.map key).Nodup →
      updateFirst (fun a => decide (key a = c)) f l
        = l.map fun a => if key a = c then f a else a
  | [], _ => rfl
  | x :: xs, h => by
    simp only [List.map_cons, List.nodup_cons] at h
    by_cases hx : key x = c
    · have hxs : ∀ a ∈ xs, ¬ key a = c := by
        intro a ha hac
        apply h.1
        have hmem : key a ∈ List.map key xs := List.mem_map_of_mem key ha
        rwa [hac, ← hx] at hmem
      have hmap : xs.map (fun a => if key a = c then f a else a) = xs := by
        have h1 : xs.map (fun a => if key a = c then f a else a) = xs.map id :=
          List.map_congr_left (fun a ha => by simp [hxs a ha])
        simpa using h1
      simp [updateFirst, hx, hmap]
    · have hrec := updateFirst_eq_map key c f hf xs h.2
      simp [updateFirst, hx, hrec]

theorem foldl_updateFirst_eq_map [DecidableEq κ] (key : α → κ) (ekey : ε → κ)
    (upd : ε → α → α) (hupd : ∀ e a, key (upd e a) = key a) :
    ∀ (es : List ε) (l : List α), (l.map key).Nodup →
      es.foldl (fun acc e => updateFirst (fun a => decide (key a = ekey e)) (upd e) acc) l
        = l.map fun a => es.foldl (fun b e => if key b = ekey e then upd e b else b) a
  | [], l, _ => by simp
  | e :: es, l, h => by
    simp only [List.foldl_cons]
    rw [updateFirst_eq_map key (ekey e) (upd e) (hupd e) l h]
    have hkey : (l.map fun a => if key a = ekey e then upd e a else a).map key = l.map key := by
      rw [List.map_map]
      refine List.map_congr_left ?_
      intro a _
      by_cases hk : key a = ekey e <;> simp [Function.comp, hk, hupd]
    rw [foldl_updateFirst_eq_map key ekey upd hupd es _ (by rw [hkey]; exact h)]
    rw [List.map_map]
    rfl

/-! ## Generic lemmas: the stable descending sort -/

theorem insertDescBy_perm (val : α → Nat) (x : α) :
    ∀ l : List α, (insertDescBy val x l).Perm (x :: l)
  | [] => List.Perm.refl _
  | y :: ys => by
    by_cases h : val x ≤ val y
    · simp only [insertDescBy, h, if_true]
      exact ((insertDescBy_perm val x ys).cons y).trans (List.Perm.swap x y ys)
    · simp [insertDescBy, h]

theorem sortDescBy_perm_aux (val : α → Nat) :
    ∀ (l acc : List α), (l.foldl (fun acc x => insertDescBy val x acc) acc).Perm (acc ++ l)
  | [], acc => by simp
  | x :: l, acc => by
    simp only [List.foldl_cons]
    refine (sortDescBy_perm_aux val l (insertDescBy val x acc)).trans ?_
    have h1 : (insertDescBy val x acc ++ l).Perm ((x :: acc) ++ l) :=
      (insertDescBy_perm val x acc).append_right l
    refine h1.trans ?_
    simpa using (@List.perm_middle _ x acc l).symm

theorem sortDescBy_perm (val : α → Nat) (l : List α) : (sortDescBy val l).Perm l := by
  simpa using sortDescBy_perm_aux val l []

theorem insertDescBy_pairwise (val : α → Nat) (x : α) :
    ∀ l : List α, l.Pairwise (fun a b => val b ≤ val a) →
      (insertDescBy val x l).Pairwise (fun a b => val b ≤ val a)
  | [], _ => List.pairwise_singleton _ x
  | y :: ys, h => by
    rcases List.pairwise_cons.mp h with ⟨hy, hys⟩
    by_cases hxy : val x ≤ val y
    · simp only [insertDescBy, hxy, if_true]
      refine List.pairwise_cons.mpr ⟨?_, insertDescBy_pairwise val x ys hys⟩
      intro b hb
      rcases List.mem_cons.mp ((insertDescBy_perm val x ys).mem_iff.mp hb) with hb' | hb'
      · exact hb' ▸ hxy
      · exact hy b hb'
    · push_neg at hxy
      simp only [insertDescBy, not_le.mpr hxy, if_false]
      refine List.pairwise_cons.mpr ⟨?_, h⟩
      intro b hb
      rcases List.mem_cons.mp hb with hb' | hb'
      · exact hb' ▸ le_of_lt hxy
      · exact le_trans (hy b hb') (le_of_lt hxy)

theorem sortDescBy_pairwise_aux (val : α → Nat) :
    ∀ (l acc : List α), acc.Pairwise (fun a b => val b ≤ val a) →
      (l.foldl (fun acc x => insertDescBy val x acc) acc).Pairwise (fun a b => val b ≤ val a)
  | [], _, h => h
  | x :: l, acc, h =>
    sortDescBy_pairwise_aux val l _ (insertDescBy_pairwise val x acc h)

theorem sortDescBy_pairwise (val : α → Nat) (l : List α) :
    (sortDescBy val l).Pairwise (fun a b => val b ≤ val a) :=
  sortDescBy_pairwise_aux val l [] (List.Pairwise.nil)

theorem filter_insertDescBy_ne (val : α → Nat) (x : α) (c : Nat) (hxc : ¬ val x = c) :
    ∀ l : List α,
      (insertDescBy val x l).filter (fun a => decide (val a = c))
        = l.filter (fun a => decide (val a = c))
  | [] => by simp [insertDescBy, hxc]
  | y :: ys => by
    by_cases hxy : val x ≤ val y
    · simp only [insertDescBy, hxy, if_true, List.filter_cons]
      rw [filter_insertDescBy_ne val x c hxc ys]
    · simp [insertDescBy, hxy, List.filter_cons, hxc]

theorem filter_insertDescBy_eq (val : α → Nat) (x : α) (c : Nat) (hxc : val x = c) :
    ∀ l : List α, l.Pairwise (fun a b => val b ≤ val a) →
      (insertDescBy val x l).filter (fun a => decide (val a = c))
        = l.filter (fun a => decide (val a = c)) ++ [x]
  | [], _ => by simp [insertDescBy, hxc]
  | y :: ys, h => by
    rcases List.pairwise_cons.mp h with ⟨hy, hys⟩
    by_cases hxy : val x ≤ val y
    · simp only [insertDescBy, hxy, if_true, List.filter_cons]
      rw [filter_insertDescBy_eq val x c hxc ys hys]
      by_cases hyc : val y = c <;> simp [hyc]
    · push_neg at hxy
      have hnil : ys.filter (fun a => decide (val a = c)) = [] := by
        refine List.filter_eq_nil_iff.mpr ?_
        intro b hb
        have hlt : val b < c := lt_of_le_of_lt (hy b hb) (hxc ▸ hxy)
        simp [Nat.ne_of_lt hlt]
      have hyc : ¬ val y = c := Nat.ne_of_lt (hxc ▸ hxy)
      simp only [insertDescBy, not_le.mpr hxy, if_false, List.filter_cons]
      simp [hxc, hyc, hnil]

theorem sortDescBy_filter_aux (val : α → Nat) (c : Nat) :
    ∀ (l acc : List α), acc.Pairwise (fun a b => val b ≤ val a) →
      (l.foldl (fun acc x => insertDescBy val x acc) acc).filter (fun a => decide (val a = c))
        = acc.filter (fun a => decide (val a = c)) ++ l.filter (fun a => decide (val a = c))
  | [], acc, _ => by simp
  | x :: l, acc, h => by
    simp only [List.foldl_cons]
    rw [sortDescBy_filter_aux val c l (insertDescBy val x acc)
      (insertDescBy_pairwise val x acc h)]
    by_cases hxc : val x = c
    · rw [filter_insertDescBy_eq val x c hxc acc h]
      simp [List.filter_cons, hxc]
    · rw [filter_insertDescBy_ne val x c hxc acc]
      simp [List.filter_cons, hxc]

theorem sortDescBy_filter (val : α → Nat) (c : Nat) (l : List α) :
    (sortDescBy val l).filter (fun a => decide (val a = c))
      = l.filter (fun a => decide (val a = c)) := by
  simpa using sortDescBy_filter_aux val c l [] List.Pairwise.nil

theorem filter_take_prefix (p : α → Bool) (n : Nat) (l : List α) :
    ((l.take n).filter p).IsPrefix (l.filter p) :=
  ⟨(l.drop n).filter p, by rw [← List.filter_append, List.take_append_drop]⟩

/-! ## Generic lemmas: insertion-ordered tallies -/

theorem tallyGet_nil (k : String) : tallyGet [] k = 0 := rfl

theorem tallyGet_cons (k0 : String) (v : Nat) (rest : List (String × Nat)) (k' : String) :
    tallyGet ((k0, v) :: rest) k' = if k0 = k' then v else tallyGet rest k' := by
  by_cases h : k0 = k' <;> simp [tallyGet, List.find?, h]

theorem tallyGet_bumpTally (k k' : String) :
    ∀ m : List (String × Nat),
      tallyGet (bumpTally m k) k' = tallyGet m k' + (if k' = k then 1 else 0)
  | [] => by
    by_cases h : k' = k
    · subst h
      simp [bumpTally, tallyGet_cons, tallyGet_nil]
    · have h2 : ¬ k = k' := fun hh => h (Eq.symm hh)
      simp [bumpTally, tallyGet_cons, tallyGet_nil, h, h2]
  | (k0, v) :: rest => by
    by_cases h0 : k0 = k
    · subst h0
      simp only [bumpTally, if_pos rfl]
      by_cases h' : k0 = k'
      · subst h'
        simp [tallyGet_cons]
      · have h'' : ¬ k' = k0 := fun hh => h' (Eq.symm hh)
        simp [tallyGet_cons, h', h'']
    · simp only [bumpTally, if_neg h0]
      rw [tallyGet_cons, tallyGet_cons]
      by_cases h' : k0 = k'
      · subst h'
        have : ¬ k = k0 := fun hh => h0 (Eq.symm hh)
        simp [fun hh => h0 hh, (by simpa [eq_comm] using this : ¬ k0 = k)]
      · simp [h', tallyGet_bumpTally k k' rest]

theorem tallyGet_foldl (k : String) :
    ∀ (xs : List String) (m : List (String × Nat)),
      tallyGet (xs.foldl bumpTally m) k = tallyGet m k + xs.count k
  | [], m => by simp
  | x :: xs, m => by
    simp only [List.foldl_cons]
    rw [tallyGet_foldl k xs (bumpTally m x), tallyGet_bumpTally x k m, List.count_cons]
    by_cases h : k = x
    · subst h
      simp
      omega
    · have h2 : (x == k) = false := by simpa [beq_iff_eq] using fun hh => h (Eq.symm hh)
      simp [h, h2]

theorem bumpTally_keys (k : String) :
    ∀ m : List (String × Nat),
      (bumpTally m k).map (·.1)
        = if k ∈ m.map (·.1) then m.map (·.1) else m.map (·.1) ++ [k]
  | [] => by simp [bumpTally]
  | (k0, v) :: rest => by
    by_cases h0 : k0 = k
    · subst h0
      simp [bumpTally]
    · have hrec := bumpTally_keys k rest
      have h0' : ¬ k = k0 := fun hh => h0 (Eq.symm hh)
      by_cases hmem : k ∈ rest.map (·.1)
      · simp [bumpTally, h0, hrec, hmem, h0']
      · simp [bumpTally, h0, hrec, hmem, h0']

theorem bumpTally_keys_nodup (k : String) (m : List (String × Nat))
    (h : (m.map (·.1)).Nodup) : ((bumpTally m k).map (·.1)).Nodup := by
  rw [bumpTally_keys]
  by_cases hmem : k ∈ m.map (·.1)
  · simpa [hmem] using h
  · simp only [hmem, if_false]
    exact List.Nodup.append h (List.nodup_singleton k) (by simpa using hmem)

theorem foldl_bumpTally_keys_nodup :
    ∀ (xs : List String) (m : List (String × Nat)),
      (m.map (·.1)).Nodup → ((xs.foldl bumpTally m).map (·.1)).Nodup
  | [], _, h => h
  | x :: xs, m, h =>
    foldl_bumpTally_keys_nodup xs (bumpTally m x) (bumpTally_keys_nodup x m h)

theorem tallyGet_of_mem :
    ∀ m : List (String × Nat), (m.map (·.1)).Nodup → ∀ kv ∈ m, tallyGet m kv.1 = kv.2
  | [], _, kv, hm => absurd hm (List.not_mem_nil kv)
  | (k0, v0) :: rest, h, kv, hm => by
    simp only [List.map_cons, List.nodup_cons] at h
    rcases List.mem_cons.mp hm with hm' | hm'
    · subst hm'
      simp [tallyGet_cons]
    · have hne : ¬ k0 = kv.1 := by
        intro hh
        apply h.1
        have : kv.1 ∈ rest.map (·.1) := List.mem_map_of_mem (·.1) hm'
        rwa [hh]
      rw [tallyGet_cons, if_neg hne]
      exact tallyGet_of_mem rest h.2 kv hm'

theorem tallyGet_tallyHashtags (f : ρ → String) (k : String) :
    ∀ (l : List ρ) (m : List (String × Nat)),
      tallyGet (tallyHashtags f l m) k
        = tallyGet m k + ((l.map fun r => extractHashtags (f r)).flatten.count k)
  | [], m => by simp [tallyHashtags]
  | r :: l, m => by
    have hcons : tallyHashtags f (r :: l) m
        = tallyHashtags f l ((extractHashtags (f r)).foldl bumpTally m) := rfl
    rw [hcons, tallyGet_tallyHashtags f k l _, tallyGet_foldl]
    simp only [List.map_cons, List.flatten_cons, List.count_append]
    omega

theorem tallyHashtags_keys_nodup (f : ρ → String) :
    ∀ (l : List ρ) (m : List (String × Nat)),
      (m.map (·.1)).Nodup → ((tallyHashtags f l m).map (·.1)).Nodup
  | [], _, h => h
  | r :: l, m, h =>
    tallyHashtags_keys_nodup f l _ (foldl_bumpTally_keys_nodup (extractHashtags (f r)) m h)

theorem hashtagTally_keys_nodup (pd : Option PostsData) (cd : Option ChangelogData) :
    ((hashtagTally pd cd).map (·.1)).Nodup :=
  tallyHashtags_keys_nodup _ _ _
    (tallyHashtags_keys_nodup _ _ _ (by simp))

theorem hashtagTally_get (pd : Option PostsData) (cd : Option ChangelogData) (k : String) :
    tallyGet (hashtagTally pd cd) k = specHashtagOccurrences pd cd k := by
  unfold hashtagTally specHashtagOccurrences
  rw [tallyGet_tallyHashtags, tallyGet_tallyHashtags, tallyGet_nil]
  omega

/-! ## Properties of `rankTally` (top-N lists) -/

theorem rankTally_length_le (m : List (String × Nat)) : (rankTally m).length ≤ 10 :=
  List.length_take_le 10 _

theorem rankTally_pairwise (m : List (String × Nat)) :
    (rankTally m).Pairwise (fun a b => b.2 ≤ a.2) :=
  List.Pairwise.sublist (List.take_sublist 10 _) (sortDescBy_pairwise (·.2) m)

theorem rankTally_filter_prefix (m : List (String × Nat)) (c : Nat) :
    ((rankTally m).filter fun kv => decide (kv.2 = c)).IsPrefix
      (m.filter fun kv => decide (kv.2 = c)) := by
  have h1 := filter_take_prefix (fun kv => decide (kv.2 = c)) 10 (sortDescBy (·.2) m)
  rw [sortDescBy_filter (·.2) c m] at h1
  exact h1

theorem rankTally_subset (m : List (String × Nat)) : ∀ kv ∈ rankTally m, kv ∈ m := by
  intro kv hkv
  have hkv' : kv ∈ List.take 10 (sortDescBy (fun kv : String × Nat => kv.2) m) := hkv
  exact (sortDescBy_perm _ m).mem_iff.mp ((List.take_sublist 10 _).subset hkv')

/-! ## Claim C3: top-N list invariants -/

/-- C3: every top-N ranked output (top hashtags and the three audience
distribution lists) has at most 10 entries, is sorted non-increasing by
count with ties kept in first-seen order (for each count value, the output's
entries with that count are an initial segment of the first-seen-ordered
tally's entries with that count), and is the empty list, not null, when the
input collection is empty. -/
theorem c3_topn_invariants (pd : Option PostsData) (cd : Option ChangelogData)
    (cn : Option ConnectionsData) :
    ((calculateTopHashtags pd cd).length ≤ 10 ∧
      (calculateTopHashtags pd cd).Pairwise (fun a b => b.2 ≤ a.2) ∧
      ∀ c : Nat, ((calculateTopHashtags pd cd).filter fun kv => decide (kv.2 = c)).IsPrefix
        ((hashtagTally pd cd).filter fun kv => decide (kv.2 = c))) ∧
    ((calculateAudienceDistribution cn).industries.length ≤ 10 ∧
      (calculateAudienceDistribution cn).industries.Pairwise (fun a b => b.2 ≤ a.2) ∧
      ∀ c : Nat,
        (((calculateAudienceDistribution cn).industries.filter fun kv =>
          decide (kv.2 = c)).IsPrefix
          ((audienceTallies (snapshotRows cn)).1.filter fun kv => decide (kv.2 = c)))) ∧
    ((calculateAudienceDistribution cn).positions.length ≤ 10 ∧
      (calculateAudienceDistribution cn).positions.Pairwise (fun a b => b.2 ≤ a.2) ∧
      ∀ c : Nat,
        (((calculateAudienceDistribution cn).positions.filter fun kv =>
          decide (kv.2 = c)).IsPrefix
          ((audienceTallies (snapshotRows cn)).2.1.filter fun kv => decide (kv.2 = c)))) ∧
    ((calculateAudienceDistribution cn).locations.length ≤ 10 ∧
      (calculateAudienceDistribution cn).locations.Pairwise (fun a b => b.2 ≤ a.2) ∧
      ∀ c : Nat,
        (((calculateAudienceDistribution cn).locations.filter fun kv =>
          decide (kv.2 = c)).IsPrefix
          ((audienceTallies (snapshotRows cn)).2.2.filter fun kv => decide (kv.2 = c)))) ∧
    calculateTopHashtags none none = ([] : List (String × Nat)) ∧
    calculateAudienceDistribution none = ⟨[], [], []⟩ := by
  refine ⟨⟨rankTally_length_le _, rankTally_pairwise _, rankTally_filter_prefix _⟩,
    ⟨rankTally_length_le _, rankTally_pairwise _, rankTally_filter_prefix _⟩,
    ⟨rankTally_length_le _, rankTally_pairwise _, rankTally_filter_prefix _⟩,
    ⟨rankTally_length_le _, rankTally_pairwise _, rankTally_filter_prefix _⟩,
    rfl, rfl⟩

/-! ## Claim C8: hashtag counts -/

/-- C8: every entry of the top-hashtags output reports, for its hashtag, the
total number of occurrences of `#`-word tokens across the snapshot posts'
commentary and the changelog posts' commentary combined, each occurrence
counted even when repeated within one post. -/
theorem c8_hashtag_counts (pd : Option PostsData) (cd : Option ChangelogData) :
    ∀ kv ∈ calculateTopHashtags pd cd, kv.2 = specHashtagOccurrences pd cd kv.1 := by
  intro kv hkv
  have h2 : kv ∈ hashtagTally pd cd := rankTally_subset _ kv hkv
  have h3 := tallyGet_of_mem _ (hashtagTally_keys_nodup pd cd) kv h2
  rw [← h3, hashtagTally_get]

/-- Concrete posts snapshot used by the C8 witness. -/
def c8PostsData : Option PostsData :=
  some ⟨some [some [⟨some "#a #b #a"⟩]]⟩

/-- Witness for C8: on a snapshot whose single post reads `"#a #b #a"`, the
top entry is `("#a", 2)` and the theorem yields `2` = the combined
occurrence count of `"#a"`. -/
theorem c8_hashtag_counts_witness :
    (("#a", 2) ∈ calculateTopHashtags c8PostsData none) ∧
      2 = specHashtagOccurrences c8PostsData none "#a" :=
  ⟨by decide, c8_hashtag_counts c8PostsData none ("#a", 2) (by decide)⟩

/-! ## Event-kind bridging lemmas -/

theorem isLikeCreate_post_false (e : ChangelogElement) (h : isLikeCreate e = true) :
    isPostCreate e = false := by
  simp only [isLikeCreate, decide_eq_true_eq] at h
  simp [isPostCreate, h.1]

theorem isCommentCreate_post_false (e : ChangelogElement) (h : isCommentCreate e = true) :
    isPostCreate e = false := by
  simp only [isCommentCreate, decide_eq_true_eq] at h
  simp [isPostCreate, h.1]

theorem isCommentCreate_like_false (e : ChangelogElement) (h : isCommentCreate e = true) :
    isLikeCreate e = false := by
  simp only [isCommentCreate, decide_eq_true_eq] at h
  simp [isLikeCreate, h.1]

theorem isShareCreate_post_false (e : ChangelogElement) (h : isShareCreate e = true) :
    isPostCreate e = false := by
  simp only [isShareCreate, decide_eq_true_eq] at h
  simp [isPostCreate, h.1]

theorem isShareCreate_like_false (e : ChangelogElement) (h : isShareCreate e = true) :
    isLikeCreate e = false := by
  simp only [isShareCreate, decide_eq_true_eq] at h
  simp [isLikeCreate, h.1]

theorem isShareCreate_comment_false (e : ChangelogElement) (h : isShareCreate e = true) :
    isCommentCreate e = false := by
  simp only [isShareCreate, decide_eq_true_eq] at h
  simp [isCommentCreate, h.1]

theorem eventKind_post (e : ChangelogElement) :
    eventKind e = some .post ↔ isPostCreate e = true := by
  unfold eventKind
  by_cases h1 : isPostCreate e
  · simp [h1]
  · simp only [h1, Bool.false_eq_true, if_false]
    by_cases h2 : isLikeCreate e
    · simp [h2, h1]
    · simp only [h2, Bool.false_eq_true, if_false]
      by_cases h3 : isCommentCreate e
      · simp [h3, h1]
      · simp only [h3, Bool.false_eq_true, if_false]
        by_cases h4 : isShareCreate e <;> simp [h4, h1]

theorem eventKind_like (e : ChangelogElement) :
    eventKind e = some .like ↔ isLikeCreate e = true := by
  unfold eventKind
  by_cases h2 : isLikeCreate e
  · simp [h2, isLikeCreate_post_false e h2]
  · by_cases h1 : isPostCreate e
    · simp [h1, h2]
    · simp only [h1, h2, Bool.false_eq_true, if_false]
      by_cases h3 : isCommentCreate e
      · simp [h3, h2]
      · simp only [h3, Bool.false_eq_true, if_false]
        by_cases h4 : isShareCreate e <;> simp [h4, h2]

theorem eventKind_comment (e : ChangelogElement) :
    eventKind e = some .comment ↔ isCommentCreate e = true := by
  unfold eventKind
  by_cases h3 : isCommentCreate e
  · simp [h3, isCommentCreate_post_false e h3, isCommentCreate_like_false e h3]
  · by_cases h1 : isPostCreate e
    · simp [h1, h3]
    · simp only [h1, Bool.false_eq_true, if_false]
      by_cases h2 : isLikeCreate e
      · simp [h2, h3]
      · simp only [h2, Bool.false_eq_true, if_false]
        by_cases h4 : isShareCreate e <;> simp [h3, h4]

theorem eventKind_share (e : ChangelogElement) :
    eventKind e = some .shareK ↔ isShareCreate e = true := by
  unfold eventKind
  by_cases h4 : isShareCreate e
  · simp [h4, isShareCreate_post_false e h4, isShareCreate_like_false e h4,
      isShareCreate_comment_false e h4]
  · by_cases h1 : isPostCreate e
    · simp [h1, h4]
    · simp only [h1, Bool.false_eq_true, if_false]
      by_cases h2 : isLikeCreate e
      · simp [h2, h4]
      · simp only [h2, Bool.false_eq_true, if_false]
        by_cases h3 : isCommentCreate e <;> simp [h3, h4]

/-! ## Counter behaviour of `bumpTrendBucket` -/

theorem bumpTrendBucket_date (e : ChangelogElement) (b : TrendBucket) :
    (bumpTrendBucket e b).date = b.date := by
  unfold bumpTrendBucket
  rcases h : eventKind e with _ | k
  · rfl
  · cases k <;> rfl

theorem bumpTrendBucket_posts (e : ChangelogElement) (b : TrendBucket) :
    (bumpTrendBucket e b).posts = b.posts + (if isPostCreate e then 1 else 0) := by
  unfold bumpTrendBucket
  rcases h : eventKind e with _ | k
  · have : ¬ isPostCreate e = true := fun hh => by
      rw [(eventKind_post e).mpr hh] at h; cases h
    simp [this]
  · cases k
    · simp [(eventKind_post e).mp h]
    · have := isLikeCreate_post_false e ((eventKind_like e).mp h)
      simp [this]
    · have := isCommentCreate_post_false e ((eventKind_comment e).mp h)
      simp [this]
    · have := isShareCreate_post_false e ((eventKind_share e).mp h)
      simp [this]

theorem bumpTrendBucket_likes (e : ChangelogElement) (b : TrendBucket) :
    (bumpTrendBucket e b).likes = b.likes + (if isLikeCreate e then 1 else 0) := by
  unfold bumpTrendBucket
  rcases h : eventKind e with _ | k
  · have : ¬ isLikeCreate e = true := fun hh => by
      rw [(eventKind_like e).mpr hh] at h; cases h
    simp [this]
  · cases k
    · have : ¬ isLikeCreate e = true := fun hh => by
        rw [(eventKind_like e).mpr hh] at h; cases h
      simp [this]
    · simp [(eventKind_like e).mp h]
    · have : ¬ isLikeCreate e = true := fun hh => by
        rw [(eventKind_like e).mpr hh] at h; cases h
      simp [this]
    · have : ¬ isLikeCreate e = true := fun hh => by
        rw [(eventKind_like e).mpr hh] at h; cases h
      simp [this]

theorem bumpTrendBucket_comments (e : ChangelogElement) (b : TrendBucket) :
    (bumpTrendBucket e b).comments = b.comments + (if isCommentCreate e then 1 else 0) := by
  unfold bumpTrendBucket
  rcases h : eventKind e with _ | k
  · have : ¬ isCommentCreate e = true := fun hh => by
      rw [(eventKind_comment e).mpr hh] at h; cases h
    simp [this]
  · cases k
    · have : ¬ isCommentCreate e = true := fun hh => by
        rw [(eventKind_comment e).mpr hh] at h; cases h
      simp [this]
    · have : ¬ isCommentCreate e = true := fun hh => by
        rw [(eventKind_comment e).mpr hh] at h; cases h
      simp [this]
    · simp [(eventKind_comment e).mp h]
    · have : ¬ isCommentCreate e = true := fun hh => by
        rw [(eventKind_comment e).mpr hh] at h; cases h
      simp [this]

theorem bumpTrendBucket_shares (e : ChangelogElement) (b : TrendBucket) :
    (bumpTrendBucket e b).shares = b.shares + (if isShareCreate e then 1 else 0) := by
  unfold bumpTrendBucket
  rcases h : eventKind e with _ | k
  · have : ¬ isShareCreate e = true := fun hh => by
      rw [(eventKind_share e).mpr hh] at h; cases h
    simp [this]
  · cases k
    · have : ¬ isShareCreate e = true := fun hh => by
        rw [(eventKind_share e).mpr hh] at h; cases h
      simp [this]
    · have : ¬ isShareCreate e = true := fun hh => by
        rw [(eventKind_share e).mpr hh] at h; cases h
      simp [this]
    · have : ¬ isShareCreate e = true := fun hh => by
        rw [(eventKind_share e).mpr hh] at h; cases h
      simp [this]
    · simp [(eventKind_share e).mp h]

/-! ## Per-bucket characterisation of the trend fold -/

theorem trendCell (es : List ChangelogElement) :
    ∀ b : TrendBucket,
      (es.foldl (fun b e => if b.date = elementDayLabel e then bumpTrendBucket e b else b) b).date
          = b.date ∧
      (es.foldl (fun b e => if b.date = elementDayLabel e then bumpTrendBucket e b else b)
          b).posts
        = b.posts + es.countP (fun e => decide (elementDayLabel e = b.date) && isPostCreate e) ∧
      (es.foldl (fun b e => if b.date = elementDayLabel e then bumpTrendBucket e b else b)
          b).likes
        = b.likes + es.countP (fun e => decide (elementDayLabel e = b.date) && isLikeCreate e) ∧
      (es.foldl (fun b e => if b.date = elementDayLabel e then bumpTrendBucket e b else b)
          b).comments
        = b.comments
            + es.countP (fun e => decide (elementDayLabel e = b.date) && isCommentCreate e) ∧
      (es.foldl (fun b e => if b.date = elementDayLabel e then bumpTrendBucket e b else b)
          b).shares
        = b.shares + es.countP (fun e => decide (elementDayLabel e = b.date) && isShareCreate e)
  := by
  induction es with
  | nil => intro b; simp
  | cons e es ih =>
    intro b
    simp only [List.foldl_cons, List.countP_cons]
    by_cases hmatch : b.date = elementDayLabel e
    · rw [if_pos hmatch]
      rcases ih (bumpTrendBucket e b) with ⟨hd, hp, hl, hc, hs⟩
      rw [bumpTrendBucket_date] at hd hp hl hc hs
      have hlbl : (decide (elementDayLabel e = b.date)) = true := by simp [hmatch]
      refine ⟨hd, ?_, ?_, ?_, ?_⟩
      · rw [hp, bumpTrendBucket_posts]
        simp only [hlbl, Bool.true_and]
        by_cases h1 : isPostCreate e <;> (simp [h1]; try omega)
      · rw [hl, bumpTrendBucket_likes]
        simp only [hlbl, Bool.true_and]
        by_cases h1 : isLikeCreate e <;> (simp [h1]; try omega)
      · rw [hc, bumpTrendBucket_comments]
        simp only [hlbl, Bool.true_and]
        by_cases h1 : isCommentCreate e <;> (simp [h1]; try omega)
      · rw [hs, bumpTrendBucket_shares]
        simp only [hlbl, Bool.true_and]
        by_cases h1 : isShareCreate e <;> (simp [h1]; try omega)
    · rw [if_neg hmatch]
      rcases ih b with ⟨hd, hp, hl, hc, hs⟩
      have h2 : ¬ elementDayLabel e = b.date := fun hh => hmatch (Eq.symm hh)
      refine ⟨hd, ?_, ?_, ?_, ?_⟩ <;> simp [hp, hl, hc, hs, h2]

/-- The accumulation loop acts independently on each bucket when the bucket
labels are distinct. -/
theorem trendFold_eq_map (es : List ChangelogElement) (range : List TrendBucket)
    (h : (range.map (·.date)).Nodup) :
    trendFold es range
      = range.map fun b =>
          es.foldl (fun b e => if b.date = elementDayLabel e then bumpTrendBucket e b else b) b :=
  foldl_updateFirst_eq_map (fun d : TrendBucket => d.date) elementDayLabel bumpTrendBucket
    (fun e a => bumpTrendBucket_date e a) es range h

/-! ## Structural lemmas: dates and lengths of the bucketed outputs -/

theorem trendFold_map_date :
    ∀ (es : List ChangelogElement) (range : List TrendBucket),
      (trendFold es range).map (·.date) = range.map (·.date)
  | [], _ => rfl
  | e :: es, range => by
    have h1 := updateFirst_map_key (fun d : TrendBucket => d.date)
      (fun d => decide (d.date = elementDayLabel e)) (bumpTrendBucket e)
      (fun a => bumpTrendBucket_date e a) range
    have hcons : trendFold (e :: es) range
        = trendFold es
          (updateFirst (fun d => decide (d.date = elementDayLabel e)) (bumpTrendBucket e)
            range) := rfl
    rw [hcons, trendFold_map_date es _, h1]

theorem initialTrendRange_map_date (days : Nat) (today : Int) :
    (initialTrendRange days today).map (·.date)
      = (List.range days).map fun j : Nat => monthDay (today - days + 1 + (j : Int)) := by
  unfold initialTrendRange
  rw [List.map_map]
  rfl

theorem calculateTrend_map_date (cd : Option ChangelogData) (tr : String) (now : Int) :
    (calculatePostsEngagementsTrend cd tr now).map (·.date)
      = (List.range (trendDays tr)).map fun j : Nat =>
          monthDay (dayOfMs now - trendDays tr + 1 + (j : Int)) := by
  unfold calculatePostsEngagementsTrend
  rw [List.map_map]
  have h1 : ((fun d : TrendEntry => d.date) ∘
      fun d : TrendBucket => (⟨d.date, d.posts, d.likes, d.comments,
        d.likes + d.comments + d.shares⟩ : TrendEntry)) = fun d : TrendBucket => d.date := rfl
  rw [h1, trendFold_map_date, initialTrendRange_map_date]

theorem calculateTrend_length (cd : Option ChangelogData) (tr : String) (now : Int) :
    (calculatePostsEngagementsTrend cd tr now).length = trendDays tr := by
  have h := congrArg List.length (calculateTrend_map_date cd tr now)
  rw [List.length_map, List.length_map, List.length_range] at h
  exact h

theorem growthLoop_length (conns : List ConnectionRow) (pdate : String → Int) :
    ∀ (n : Nat) (cum : Nat) (d : Int), (growthLoop conns pdate cum d n).length = n
  | 0, _, _ => rfl
  | n + 1, cum, d => by
    simp [growthLoop, growthLoop_length conns pdate n]

theorem growthLoop_map_date (conns : List ConnectionRow) (pdate : String → Int) :
    ∀ (n : Nat) (cum : Nat) (d : Int),
      (growthLoop conns pdate cum d n).map (·.date)
        = (List.range n).map fun j : Nat => monthDay (d + (j : Int))
  | 0, _, _ => rfl
  | n + 1, cum, d => by
    simp only [growthLoop, List.map_cons]
    rw [growthLoop_map_date conns pdate n, List.range_succ_eq_map, List.map_cons,
      List.map_map]
    congr 1
    · norm_num
    · refine List.map_congr_left ?_
      intro j _
      simp only [Function.comp_apply]
      exact congrArg monthDay (by push_cast; ring)

theorem calculateGrowth_map_date (cd : Option ConnectionsData) (tr : String)
    (pdate : String → Int) (now : Int) :
    (calculateConnectionsGrowth cd tr pdate now).map (·.date)
      = (List.range (trendDays tr + 1)).map fun j : Nat =>
          monthDay (dayOfMs now - trendDays tr + (j : Int)) := by
  unfold calculateConnectionsGrowth
  rw [growthLoop_map_date]

theorem calculateGrowth_length (cd : Option ConnectionsData) (tr : String)
    (pdate : String → Int) (now : Int) :
    (calculateConnectionsGrowth cd tr pdate now).length = trendDays tr + 1 := by
  unfold calculateConnectionsGrowth
  rw [growthLoop_length]

theorem bumpMessageBucket_date (uid : Option String) (e : ChangelogElement)
    (d : MessageBucket) : (bumpMessageBucket uid e d).date = d.date := by
  unfold bumpMessageBucket
  by_cases h : e.actor = uid <;> simp [h]

theorem messageFold_map_date :
    ∀ (uid : Option String) (es : List ChangelogElement) (range : List MessageBucket),
      (messageFold uid es range).map (·.date) = range.map (·.date)
  | _, [], _ => rfl
  | uid, e :: es, range => by
    have h1 := updateFirst_map_key (fun d : MessageBucket => d.date)
      (fun d => decide (d.date = dayOfMs e.capturedAt)) (bumpMessageBucket uid e)
      (fun a => bumpMessageBucket_date uid e a) range
    have hcons : messageFold uid (e :: es) range
        = messageFold uid es
          (updateFirst (fun d => decide (d.date = dayOfMs e.capturedAt))
            (bumpMessageBucket uid e) range) := rfl
    rw [hcons, messageFold_map_date uid es _, h1]

theorem calculateMessages_map_date (cd : Option ChangelogData) (now : Int) :
    (calculateMessagesSentReceived cd now).map (·.date)
      = (List.range 30).map fun j : Nat => monthDay (dayOfMs now - 29 + (j : Int)) := by
  unfold calculateMessagesSentReceived
  rw [List.map_map]
  have h1 : ((fun d : MessageEntry => d.date) ∘ fun d : MessageBucket =>
      (⟨monthDay d.date, d.sent, d.received⟩ : MessageEntry))
      = (fun d : MessageBucket => monthDay d.date) := rfl
  rw [h1]
  have h2 : (fun d : MessageBucket => monthDay d.date)
      = (fun p : Int => monthDay p) ∘ (fun d : MessageBucket => d.date) := rfl
  rw [h2, ← List.map_map, messageFold_map_date]
  unfold initialMessageRange
  rw [List.map_map, List.map_map]
  rfl

theorem calculateMessages_length (cd : Option ChangelogData) (now : Int) :
    (calculateMessagesSentReceived cd now).length = 30 := by
  have h := congrArg List.length (calculateMessages_map_date cd now)
  rw [List.length_map, List.length_map, List.length_range] at h
  exact h

/-! ## Claim C1: bucket counts and contiguity -/

/-- C1 (amended): for every input and range selector the day-bucketed outputs
are dense sequences of consecutive calendar-day labels, oldest first, ending
today: the posts-engagement trend has exactly 7/30/90 entries and the
messages series exactly 30, but the connections growth series has `days + 1`
entries (8/31/91), because its loop runs from `today - days` to `today`
inclusive. -/
theorem c1_day_bucket_counts (cd : Option ChangelogData) (cn : Option ConnectionsData)
    (tr : String) (pdate : String → Int) (now : Int) :
    (calculatePostsEngagementsTrend cd tr now).length = trendDays tr ∧
    (calculatePostsEngagementsTrend cd tr now).map (·.date)
      = (List.range (trendDays tr)).map
          (fun j : Nat => monthDay (dayOfMs now - trendDays tr + 1 + (j : Int))) ∧
    (calculateConnectionsGrowth cn tr pdate now).length = trendDays tr + 1 ∧
    (calculateConnectionsGrowth cn tr pdate now).map (·.date)
      = (List.range (trendDays tr + 1)).map
          (fun j : Nat => monthDay (dayOfMs now - trendDays tr + (j : Int))) ∧
    (calculateMessagesSentReceived cd now).length = 30 ∧
    (calculateMessagesSentReceived cd now).map (·.date)
      = (List.range 30).map (fun j : Nat => monthDay (dayOfMs now - 29 + (j : Int))) :=
  ⟨calculateTrend_length cd tr now, calculateTrend_map_date cd tr now,
    calculateGrowth_length cn tr pdate now, calculateGrowth_map_date cn tr pdate now,
    calculateMessages_length cd now, calculateMessages_map_date cd now⟩

/-- C1 counterexample: with the `7d` selector the connections growth output
has 8 entries, not 7 (evaluated at an empty connections payload, date parser
constantly 0 and `now = 0`). -/
theorem c1_growth_length_counterexample :
    (calculateConnectionsGrowth none "7d" (fun _ => 0) 0).length = 8 ∧
      ¬ (calculateConnectionsGrowth none "7d" (fun _ => 0) 0).length = 7 := by
  constructor
  · decide
  · decide

/-! ## Claim C2: the trend projection -/

/-- C2 (amended): under distinct bucket labels, the `k`-th trend entry
carries the posts, likes and comments counters for its calendar day together
with `totalEngagement` = likes + comments + shares of that day, the three
engagement counts being the numbers of matching CREATE events with that day
label; the `shares` counter itself is not part of the projected entry. -/
theorem c2_projection_fields (cd : Option ChangelogData) (tr : String) (now : Int)
    (hnd : ((initialTrendRange (trendDays tr) (dayOfMs now)).map (·.date)).Nodup)
    (k : Nat) (hk : k < trendDays tr) :
    (calculatePostsEngagementsTrend cd tr now)[k]?
      = some ⟨monthDay (dayOfMs now - trendDays tr + 1 + (k : Int)),
          (changelogElements cd).countP (fun e =>
            decide (elementDayLabel e = monthDay (dayOfMs now - trendDays tr + 1 + (k : Int)))
              && isPostCreate e),
          (changelogElements cd).countP (fun e =>
            decide (elementDayLabel e = monthDay (dayOfMs now - trendDays tr + 1 + (k : Int)))
              && isLikeCreate e),
          (changelogElements cd).countP (fun e =>
            decide (elementDayLabel e = monthDay (dayOfMs now - trendDays tr + 1 + (k : Int)))
              && isCommentCreate e),
          (changelogElements cd).countP (fun e =>
            decide (elementDayLabel e = monthDay (dayOfMs now - trendDays tr + 1 + (k : Int)))
              && isLikeCreate e)
            + (changelogElements cd).countP (fun e =>
              decide (elementDayLabel e
                  = monthDay (dayOfMs now - trendDays tr + 1 + (k : Int)))
                && isCommentCreate e)
            + (changelogElements cd).countP (fun e =>
              decide (elementDayLabel e
                  = monthDay (dayOfMs now - trendDays tr + 1 + (k : Int)))
                && isShareCreate e)⟩ := by
  simp only [calculatePostsEngagementsTrend]
  rw [trendFold_eq_map _ _ hnd, List.map_map]
  rw [List.getElem?_map]
  unfold initialTrendRange
  rw [List.getElem?_map, List.getElem?_range hk]
  simp only [Option.map]
  rcases trendCell (changelogElements cd)
      ⟨monthDay (dayOfMs now - trendDays tr + 1 + (k : Int)), 0, 0, 0, 0⟩ with
    ⟨hd, hp, hl, hc, hs⟩
  simp only [Function.comp_apply]
  rw [hd, hp, hl, hc, hs]
  simp

/-- Witness for C2: at `now = 0`, range `7d` and an empty changelog, the
first trend entry is the zero entry of Dec 26. -/
theorem c2_projection_fields_witness :
    (calculatePostsEngagementsTrend none "7d" 0)[0]? = some ⟨(12, 26), 0, 0, 0, 0⟩ := by
  have h := c2_projection_fields none "7d" 0 (by decide) 0 (by decide)
  rw [h]
  decide

/-- Concrete changelog for the C2 counterexample: a single share-creation
event captured at the epoch. -/
def c2ShareChangelog : Option ChangelogData :=
  some ⟨some [⟨"socialActions/shares", "CREATE", 0, none, none, "s", none⟩]⟩

/-- C2 counterexample: the projected trend entry does not carry all four
counters — `"shares"` is not among the keys of the projected object, and a
day with exactly one share event yields an entry whose likes and comments are
0 while `totalEngagement` is 1, the share being visible only through the
derived field. -/
theorem c2_shares_key_counterexample :
    ("shares" ∉ trendProjectionKeys) ∧
      (calculatePostsEngagementsTrend c2ShareChangelog "7d" 0)
        = [⟨(12, 26), 0, 0, 0, 0⟩, ⟨(12, 27), 0, 0, 0, 0⟩, ⟨(12, 28), 0, 0, 0, 0⟩,
           ⟨(12, 29), 0, 0, 0, 0⟩, ⟨(12, 30), 0, 0, 0, 0⟩, ⟨(12, 31), 0, 0, 0, 0⟩,
           ⟨(1, 1), 0, 0, 0, 1⟩] := by
  constructor
  · decide
  · decide

/-! ## Per-bucket characterisation of the message fold -/

theorem bumpMessageBucket_sent (uid : Option String) (e : ChangelogElement)
    (d : MessageBucket) :
    (bumpMessageBucket uid e d).sent = d.sent + (if e.actor = uid then 1 else 0) := by
  unfold bumpMessageBucket
  by_cases h : e.actor = uid <;> simp [h]

theorem bumpMessageBucket_received (uid : Option String) (e : ChangelogElement)
    (d : MessageBucket) :
    (bumpMessageBucket uid e d).received
      = d.received + (if e.actor = uid then 0 else 1) := by
  unfold bumpMessageBucket
  by_cases h : e.actor = uid <;> simp [h]

theorem messageCell (uid : Option String) (es : List ChangelogElement) :
    ∀ b : MessageBucket,
      (es.foldl (fun b e => if b.date = dayOfMs e.capturedAt then bumpMessageBucket uid e b
          else b) b).date = b.date ∧
      (es.foldl (fun b e => if b.date = dayOfMs e.capturedAt then bumpMessageBucket uid e b
          else b) b).sent
        = b.sent + es.countP (fun e =>
            decide (dayOfMs e.capturedAt = b.date) && decide (e.actor = uid)) ∧
      (es.foldl (fun b e => if b.date = dayOfMs e.capturedAt then bumpMessageBucket uid e b
          else b) b).received
        = b.received + es.countP (fun e =>
            decide (dayOfMs e.capturedAt = b.date) && !(decide (e.actor = uid))) := by
  induction es with
  | nil => intro b; simp
  | cons e es ih =>
    intro b
    simp only [List.foldl_cons, List.countP_cons]
    by_cases hmatch : b.date = dayOfMs e.capturedAt
    · rw [if_pos hmatch]
      rcases ih (bumpMessageBucket uid e b) with ⟨hd, hs, hr⟩
      rw [bumpMessageBucket_date] at hd hs hr
      have hlbl : (decide (dayOfMs e.capturedAt = b.date)) = true := by simp [hmatch]
      refine ⟨hd, ?_, ?_⟩
      · rw [hs, bumpMessageBucket_sent]
        simp only [hlbl, Bool.true_and]
        by_cases h1 : e.actor = uid <;> (simp [h1]; try omega)
      · rw [hr, bumpMessageBucket_received]
        simp only [hlbl, Bool.true_and]
        by_cases h1 : e.actor = uid <;> (simp [h1]; try omega)
    · rw [if_neg hmatch]
      rcases ih b with ⟨hd, hs, hr⟩
      have h2 : ¬ dayOfMs e.capturedAt = b.date := fun hh => hmatch (Eq.symm hh)
      refine ⟨hd, ?_, ?_⟩ <;> simp [hs, hr, h2]

theorem messageFold_eq_map (uid : Option String) (es : List ChangelogElement)
    (range : List MessageBucket) (h : (range.map (·.date)).Nodup) :
    messageFold uid es range
      = range.map fun b =>
          es.foldl (fun b e => if b.date = dayOfMs e.capturedAt then bumpMessageBucket uid e b
            else b) b :=
  foldl_updateFirst_eq_map (fun d : MessageBucket => d.date)
    (fun ev : ChangelogElement => dayOfMs ev.capturedAt)
    (bumpMessageBucket uid) (fun e a => bumpMessageBucket_date uid e a) es range h

theorem initialMessageRange_dates_nodup (today : Int) :
    ((initialMessageRange today).map (·.date)).Nodup := by
  unfold initialMessageRange
  rw [List.map_map]
  have h1 : ((fun d : MessageBucket => d.date) ∘ fun j : Nat =>
      (⟨today - 29 + (j : Int), 0, 0⟩ : MessageBucket))
      = fun j : Nat => today - 29 + (j : Int) := rfl
  rw [h1]
  refine List.Nodup.map ?_ (List.nodup_range 30)
  intro a b hab
  have hab2 : today - 29 + (a : Int) = today - 29 + (b : Int) := hab
  have : (a : Int) = b := by omega
  exact_mod_cast this

/-! ## Claim C9: the messages sent/received series -/

/-- C9 (amended): the `k`-th message bucket (day `today - 29 + k`) counts
exactly the events with `resourceName = "messages"`, captured within the last
30 days (`capturedAt ≥ now - 30 days`) and whose calendar day is that
bucket's day — `sent` when the actor equals the inferred current user (the
`owner` of the first event that has one), `received` otherwise.  Messages
passing the 30-day filter whose calendar day precedes the bucket range (the
boundary window) are counted nowhere. -/
theorem c9_messages_buckets (cd : Option ChangelogData) (now : Int) (k : Nat)
    (hk : k < 30) :
    (calculateMessagesSentReceived cd now)[k]?
      = some ⟨monthDay (dayOfMs now - 29 + (k : Int)),
          (changelogElements cd).countP (fun e =>
            (decide (dayOfMs e.capturedAt = dayOfMs now - 29 + (k : Int))
                && decide (e.actor = currentUserOf (changelogElements cd)))
              && isRecentMessage now e),
          (changelogElements cd).countP (fun e =>
            (decide (dayOfMs e.capturedAt = dayOfMs now - 29 + (k : Int))
                && !(decide (e.actor = currentUserOf (changelogElements cd))))
              && isRecentMessage now e)⟩ := by
  simp only [calculateMessagesSentReceived]
  rw [messageFold_eq_map _ _ _ (initialMessageRange_dates_nodup (dayOfMs now)),
    List.map_map, List.getElem?_map]
  unfold initialMessageRange
  rw [List.getElem?_map, List.getElem?_range hk]
  simp only [Option.map]
  rcases messageCell (currentUserOf (changelogElements cd))
      ((changelogElements cd).filter (isRecentMessage now))
      ⟨dayOfMs now - 29 + (k : Int), 0, 0⟩ with ⟨hd, hs, hr⟩
  simp only [Function.comp_apply]
  rw [hd, hs, hr, List.countP_filter, List.countP_filter]
  simp

/-- Witness for C9: with an empty changelog and `now = 0` the first bucket is
the zero bucket of Dec 3. -/
theorem c9_messages_buckets_witness :
    (calculateMessagesSentReceived none 0)[0]? = some ⟨(12, 3), 0, 0⟩ := by
  have h := c9_messages_buckets none 0 0 (by decide)
  rw [h]
  decide

/-- Concrete changelog for the C9 counterexample: one message captured
exactly 30 days before `now` (`capturedAt = now - 30 · 86400000`), whose
actor equals the inferred current user. -/
def c9BoundaryChangelog : Option ChangelogData :=
  some ⟨some [⟨"messages", "CREATE", 0, some "u", some "u", "m", none⟩]⟩

/-- C9 counterexample: at `now = 2592000000` (30 days after the epoch) the
boundary message of `c9BoundaryChangelog` passes the last-30-days filter
(`capturedAt ≥ now - 30 days`), yet no bucket of the output counts it: every
`sent` and `received` counter is zero, so "each such message increments the
sent or received counter of its day" fails as stated. -/
theorem c9_boundary_message_counterexample :
    isRecentMessage 2592000000
        ⟨"messages", "CREATE", 0, some "u", some "u", "m", none⟩ = true ∧
      ((calculateMessagesSentReceived c9BoundaryChangelog 2592000000).foldl
        (fun acc d => acc + d.sent + d.received) 0) = 0 := by
  constructor
  · decide
  · decide

/-! ## Claims C4 and C10: the post-type classifier -/

/-- Modelled from the claim's words (C4, no fallback): if media is present,
the first media item's declared type decides — contains "VIDEO" → Video,
contains "IMAGE" → Image, otherwise → External Link (a missing or empty
declared type satisfies neither containment, so it falls to External Link);
with no media, a commentary containing "http" → External Link; otherwise →
Text Only. -/
def specClassifyClaim (e : ChangelogElement) : String :=
  match (shareContentOf e).bind (·.media) with
  | some (m :: _) =>
    match m.mediaType with
    | some t =>
      if strIncludes t "VIDEO" then "Video"
      else if strIncludes t "IMAGE" then "Image"
      else "External Link"
    | none => "External Link"
  | _ =>
    if strIncludes ((((shareContentOf e).bind (·.shareCommentary)).bind (·.text)).getD "")
        "http" then "External Link"
    else "Text Only"

/-- Modelled from the amended claim's words: as `specClassifyClaim`, except
that a missing or empty declared media type defaults to "IMAGE" and hence
classifies as Image. -/
def specClassifyAmended (e : ChangelogElement) : String :=
  match (shareContentOf e).bind (·.media) with
  | some (m :: _) =>
    let t := match m.mediaType with
      | some s => if s = "" then "IMAGE" else s
      | none => "IMAGE"
    if strIncludes t "VIDEO" then "Video"
    else if strIncludes t "IMAGE" then "Image"
    else "External Link"
  | _ =>
    if strIncludes ((((shareContentOf e).bind (·.shareCommentary)).bind (·.text)).getD "")
        "http" then "External Link"
    else "Text Only"

theorem classifyPost_mem (e : ChangelogElement) :
    classifyPost e ∈ ["Text Only", "Image", "Video", "Article", "External Link"] := by
  unfold classifyPost
  rcases hm : (shareContentOf e).bind (·.media) with _ | ms
  · simp only [hm]
    split_ifs <;> simp
  · cases ms with
    | nil => simp only [hm]; split_ifs <;> simp
    | cons m rest => simp only [hm]; split_ifs <;> simp

theorem bumpCategory_article (tc : TypeCounts) (name : String) :
    (bumpCategory tc name).article = tc.article := by
  unfold bumpCategory
  split_ifs <;> rfl

theorem postTypeFold_article :
    ∀ (posts : List ChangelogElement) (tc : TypeCounts),
      (posts.foldl postTypeStep tc).article = tc.article
  | [], _ => rfl
  | p :: posts, tc => by
    rw [List.foldl_cons, postTypeFold_article posts _]
    exact bumpCategory_article tc (classifyPost p)

/-- C10: the category "Article" never appears in the post-types breakdown:
no branch of the classifier assigns it, so its count stays zero and the
positive-count filter removes it. -/
theorem c10_no_article (cd : Option ChangelogData) :
    ∀ kv ∈ calculatePostTypesBreakdown cd, ¬ kv.1 = "Article" := by
  intro kv hkv
  simp only [calculatePostTypesBreakdown] at hkv
  rcases List.mem_filter.mp hkv with ⟨hmem, hpos⟩
  have hart := postTypeFold_article ((changelogElements cd).filter isPostCreate) ⟨0, 0, 0, 0, 0⟩
  simp only [typeCountEntries, List.mem_cons, List.not_mem_nil, or_false] at hmem
  rcases hmem with h | h | h | h | h <;> subst h <;> simp_all

/-- Concrete changelog for the C10 witness: one plain text post. -/
def c10TextChangelog : Option ChangelogData :=
  some ⟨some [⟨"ugcPosts", "CREATE", 0, none, none, "p", none⟩]⟩

/-- Witness for C10: the single breakdown entry of a text-only changelog is
not "Article". -/
theorem c10_no_article_witness : ¬ ("Text Only", 1).1 = "Article" :=
  c10_no_article c10TextChangelog ("Text Only", 1) (by decide)

theorem classifyPost_eq_amended (e : ChangelogElement) :
    classifyPost e = specClassifyAmended e := rfl

/-- C4 (amended): the classifier assigns exactly one of the five categories
by the priority rule, with the proviso that a missing or empty declared media
type defaults to "IMAGE" (hence Image) rather than falling to External Link;
the breakdown output contains only categories whose count is strictly
positive. -/
theorem c4_classifier_rule (cd : Option ChangelogData) :
    (∀ e : ChangelogElement, classifyPost e = specClassifyAmended e) ∧
    (∀ e : ChangelogElement,
      classifyPost e ∈ ["Text Only", "Image", "Video", "Article", "External Link"]) ∧
    (∀ kv ∈ calculatePostTypesBreakdown cd,
      0 < kv.2 ∧ kv.1 ∈ ["Text Only", "Image", "Video", "Article", "External Link"]) := by
  refine ⟨classifyPost_eq_amended, classifyPost_mem, ?_⟩
  intro kv hkv
  simp only [calculatePostTypesBreakdown] at hkv
  rcases List.mem_filter.mp hkv with ⟨hmem, hpos⟩
  simp only [decide_eq_true_eq] at hpos
  refine ⟨hpos, ?_⟩
  simp only [typeCountEntries, List.mem_cons, List.not_mem_nil, or_false] at hmem
  rcases hmem with h | h | h | h | h <;> subst h <;> simp

/-- Concrete post-creation event for the C4 counterexample: media is present
but its first item declares no type. -/
def c4NoTypePost : ChangelogElement :=
  ⟨"ugcPosts", "CREATE", 0, none, none, "p", some ⟨some ⟨some [⟨none⟩], none⟩, none⟩⟩

/-- Concrete changelog wrapping `c4NoTypePost`. -/
def c4NoTypeChangelog : Option ChangelogData := some ⟨some [c4NoTypePost]⟩

/-- C4 counterexample: on a post whose first media item has no declared type,
the claim's rule ("contains VIDEO → Video; contains IMAGE → Image; otherwise
→ External Link") yields External Link, but the code defaults the type to
"IMAGE" and classifies the post as Image, so the breakdown reports Image. -/
theorem c4_media_default_counterexample :
    specClassifyClaim c4NoTypePost = "External Link" ∧
      classifyPost c4NoTypePost = "Image" ∧
      calculatePostTypesBreakdown c4NoTypeChangelog = [("Image", 1)] := by
  refine ⟨?_, ?_, ?_⟩ <;> decide

/-- Witness for C4: the breakdown of the single no-type-media post consists
of the entry ("Image", 1), whose count is positive and whose name is one of
the five categories. -/
theorem c4_classifier_rule_witness :
    0 < ("Image", 1).2 ∧
      ("Image", 1).1 ∈ ["Text Only", "Image", "Video", "Article", "External Link"] :=
  (c4_classifier_rule c4NoTypeChangelog).2.2 ("Image", 1) (by decide)

/-! ## The engagement joiner: map form of the counting loop -/

theorem updateFirst_congr (p q : α → Bool) (f : α → α) (h : ∀ a, p a = q a) :
    ∀ l : List α, updateFirst p f l = updateFirst q f l
  | [] => rfl
  | x :: xs => by
    rw [updateFirst, updateFirst, h x, updateFirst_congr p q f h xs]

theorem updateFirst_id_of_false (p : α → Bool) (f : α → α) :
    ∀ l : List α, (∀ a ∈ l, p a = false) → updateFirst p f l = l
  | [], _ => rfl
  | x :: xs, h => by
    rw [updateFirst, h x (List.mem_cons_self x xs),
      updateFirst_id_of_false p f xs (fun a ha => h a (List.mem_cons_of_mem x ha))]
    simp

theorem emBump_eq_updateFirst (m : List (String × PostSummary)) (e : ChangelogElement) :
    emBump m e
      = updateFirst (fun kv => decide ((some kv.1 : Option String) = keyOfEvent e))
          (fun kv => (kv.1, bumpSummary e kv.2)) m := by
  unfold emBump
  rcases hobj : e.activity.bind (·.object) with _ | pid
  · simp only [hobj]
    rw [updateFirst_id_of_false _ _ m (fun a _ => by simp [keyOfEvent, hobj])]
  · simp only [hobj]
    by_cases hpid : pid = ""
    · subst hpid
      rw [if_neg (by intro hcontra; exact hcontra.1 rfl)]
      rw [updateFirst_id_of_false _ _ m (fun a _ => by simp [keyOfEvent, hobj])]
    · have hkey : keyOfEvent e = some pid := by simp [keyOfEvent, hobj, hpid]
      by_cases hany : (m.any fun kv => decide (kv.1 = pid)) = true
      · rw [if_pos ⟨hpid, hany⟩, hkey]
        exact updateFirst_congr _ _ _ (fun a => by simp) m
      · rw [if_neg (by intro hcontra; exact hany hcontra.2)]
        rw [updateFirst_id_of_false _ _ m ?_]
        intro a ha
        rw [hkey]
        simp only [decide_eq_false_iff_not]
        intro hcontra
        apply hany
        simp only [List.any_eq_true]
        exact ⟨a, ha, by simpa using hcontra⟩

theorem bumpSummary_postId (e : ChangelogElement) (s : PostSummary) :
    (bumpSummary e s).postId = s.postId := by
  unfold bumpSummary
  rcases h : eventKind e with _ | k
  · rfl
  · cases k <;> rfl

theorem bumpSummary_likes (e : ChangelogElement) (s : PostSummary) :
    (bumpSummary e s).likes = s.likes + (if isLikeCreate e then 1 else 0) := by
  unfold bumpSummary
  rcases h : eventKind e with _ | k
  · have : ¬ isLikeCreate e = true := fun hh => by
      rw [(eventKind_like e).mpr hh] at h; cases h
    simp [this]
  · cases k
    · have : ¬ isLikeCreate e = true := fun hh => by
        rw [(eventKind_like e).mpr hh] at h; cases h
      simp [this]
    · simp [(eventKind_like e).mp h]
    · have : ¬ isLikeCreate e = true := fun hh => by
        rw [(eventKind_like e).mpr hh] at h; cases h
      simp [this]
    · have : ¬ isLikeCreate e = true := fun hh => by
        rw [(eventKind_like e).mpr hh] at h; cases h
      simp [this]

theorem bumpSummary_comments (e : ChangelogElement) (s : PostSummary) :
    (bumpSummary e s).comments = s.comments + (if isCommentCreate e then 1 else 0) := by
  unfold bumpSummary
  rcases h : eventKind e with _ | k
  · have : ¬ isCommentCreate e = true := fun hh => by
      rw [(eventKind_comment e).mpr hh] at h; cases h
    simp [this]
  · cases k
    · have : ¬ isCommentCreate e = true := fun hh => by
        rw [(eventKind_comment e).mpr hh] at h; cases h
      simp [this]
    · have : ¬ isCommentCreate e = true := fun hh => by
        rw [(eventKind_comment e).mpr hh] at h; cases h
      simp [this]
    · simp [(eventKind_comment e).mp h]
    · have : ¬ isCommentCreate e = true := fun hh => by
        rw [(eventKind_comment e).mpr hh] at h; cases h
      simp [this]

theorem bumpSummary_shares (e : ChangelogElement) (s : PostSummary) :
    (bumpSummary e s).shares = s.shares + (if isShareCreate e then 1 else 0) := by
  unfold bumpSummary
  rcases h : eventKind e with _ | k
  · have : ¬ isShareCreate e = true := fun hh => by
      rw [(eventKind_share e).mpr hh] at h; cases h
    simp [this]
  · cases k
    · have : ¬ isShareCreate e = true := fun hh => by
        rw [(eventKind_share e).mpr hh] at h; cases h
      simp [this]
    · have : ¬ isShareCreate e = true := fun hh => by
        rw [(eventKind_share e).mpr hh] at h; cases h
      simp [this]
    · have : ¬ isShareCreate e = true := fun hh => by
        rw [(eventKind_share e).mpr hh] at h; cases h
      simp [this]
    · simp [(eventKind_share e).mp h]

/-! ## Seeding pass: keys and entries -/

theorem emUpsert_keys (k : String) (v : PostSummary) :
    ∀ m : List (String × PostSummary),
      (emUpsert m k v).map (·.1)
        = if k ∈ m.map (·.1) then m.map (·.1) else m.map (·.1) ++ [k]
  | [] => by simp [emUpsert]
  | (k0, v0) :: rest => by
    by_cases h0 : k0 = k
    · subst h0
      simp [emUpsert]
    · have h0' : ¬ k = k0 := fun hh => h0 (Eq.symm hh)
      have hrec := emUpsert_keys k v rest
      by_cases hmem : k ∈ rest.map (·.1)
      · simp [emUpsert, h0, hrec, hmem, h0']
      · simp [emUpsert, h0, hrec, hmem, h0']

theorem emUpsert_keys_nodup (k : String) (v : PostSummary)
    (m : List (String × PostSummary)) (h : (m.map (·.1)).Nodup) :
    ((emUpsert m k v).map (·.1)).Nodup := by
  rw [emUpsert_keys]
  by_cases hmem : k ∈ m.map (·.1)
  · simpa [hmem] using h
  · simp only [hmem, if_false]
    exact List.Nodup.append h (List.nodup_singleton k) (by simpa using hmem)

theorem seedMap_keys_nodup_aux :
    ∀ (ups : List ChangelogElement) (m : List (String × PostSummary)),
      (m.map (·.1)).Nodup →
      (((ups.foldl (fun m p => emUpsert m p.resourceId (seedSummary p)) m)).map (·.1)).Nodup
  | [], _, h => h
  | p :: ups, m, h =>
    seedMap_keys_nodup_aux ups _ (emUpsert_keys_nodup p.resourceId (seedSummary p) m h)

theorem seedMap_keys_nodup (ups : List ChangelogElement) :
    ((seedMap ups).map (·.1)).Nodup :=
  seedMap_keys_nodup_aux ups [] (by simp)

theorem emUpsert_mem (k : String) (v : PostSummary) :
    ∀ (m : List (String × PostSummary)) (kv : String × PostSummary),
      kv ∈ emUpsert m k v → kv ∈ m ∨ kv = (k, v)
  | [], kv, h => by
    simp only [emUpsert] at h
    exact Or.inr (by simpa using h)
  | (k0, v0) :: rest, kv, h => by
    by_cases h0 : k0 = k
    · subst h0
      simp only [emUpsert, eq_self_iff_true, if_true, List.mem_cons] at h
      rcases h with h1 | h1
      · exact Or.inr h1
      · exact Or.inl (List.mem_cons_of_mem _ h1)
    · simp only [emUpsert, if_neg h0, List.mem_cons] at h
      rcases h with h1 | h1
      · exact Or.inl (h1 ▸ List.mem_cons_self _ _)
      · rcases emUpsert_mem k v rest kv h1 with h2 | h2
        · exact Or.inl (List.mem_cons_of_mem _ h2)
        · exact Or.inr h2

theorem seedMap_mem_aux :
    ∀ (ups : List ChangelogElement) (m : List (String × PostSummary))
      (kv : String × PostSummary),
      kv ∈ ups.foldl (fun m p => emUpsert m p.resourceId (seedSummary p)) m →
      kv ∈ m ∨ ∃ p ∈ ups, kv = (p.resourceId, seedSummary p)
  | [], _, _, h => Or.inl h
  | p :: ups, m, kv, h => by
    rcases seedMap_mem_aux ups _ kv h with h' | h'
    · rcases emUpsert_mem p.resourceId (seedSummary p) m kv h' with h'' | h''
      · exact Or.inl h''
      · exact Or.inr ⟨p, List.mem_cons_self p ups, h''⟩
    · rcases h' with ⟨q, hq, hkv⟩
      exact Or.inr ⟨q, List.mem_cons_of_mem p hq, hkv⟩

theorem seedMap_mem (ups : List ChangelogElement) (kv : String × PostSummary)
    (h : kv ∈ seedMap ups) : ∃ p ∈ ups, kv = (p.resourceId, seedSummary p) := by
  rcases seedMap_mem_aux ups [] kv h with h' | h'
  · cases h'
  · exact h'

/-! ## Per-entry characterisation of the engagement counting loop -/

theorem engCell (es : List ChangelogElement) :
    ∀ a : String × PostSummary,
      (es.foldl (fun b e => if (some b.1 : Option String) = keyOfEvent e
          then (b.1, bumpSummary e b.2) else b) a).1 = a.1 ∧
      (es.foldl (fun b e => if (some b.1 : Option String) = keyOfEvent e
          then (b.1, bumpSummary e b.2) else b) a).2.postId = a.2.postId ∧
      (es.foldl (fun b e => if (some b.1 : Option String) = keyOfEvent e
          then (b.1, bumpSummary e b.2) else b) a).2.likes
        = a.2.likes + es.countP (fun e =>
            decide (keyOfEvent e = some a.1) && isLikeCreate e) ∧
      (es.foldl (fun b e => if (some b.1 : Option String) = keyOfEvent e
          then (b.1, bumpSummary e b.2) else b) a).2.comments
        = a.2.comments + es.countP (fun e =>
            decide (keyOfEvent e = some a.1) && isCommentCreate e) ∧
      (es.foldl (fun b e => if (some b.1 : Option String) = keyOfEvent e
          then (b.1, bumpSummary e b.2) else b) a).2.shares
        = a.2.shares + es.countP (fun e =>
            decide (keyOfEvent e = some a.1) && isShareCreate e) := by
  induction es with
  | nil => intro a; simp
  | cons e es ih =>
    intro a
    simp only [List.foldl_cons, List.countP_cons]
    by_cases hmatch : (some a.1 : Option String) = keyOfEvent e
    · rw [if_pos hmatch]
      rcases ih (a.1, bumpSummary e a.2) with ⟨h1, h2, hl, hc, hs⟩
      rw [bumpSummary_postId] at h2
      have hlbl : (decide (keyOfEvent e = some a.1)) = true := by
        simp [hmatch.symm]
      refine ⟨h1, h2, ?_, ?_, ?_⟩
      · rw [hl, bumpSummary_likes]
        simp only [hlbl, Bool.true_and]
        by_cases hx : isLikeCreate e <;> (simp [hx]; try omega)
      · rw [hc, bumpSummary_comments]
        simp only [hlbl, Bool.true_and]
        by_cases hx : isCommentCreate e <;> (simp [hx]; try omega)
      · rw [hs, bumpSummary_shares]
        simp only [hlbl, Bool.true_and]
        by_cases hx : isShareCreate e <;> (simp [hx]; try omega)
    · rw [if_neg hmatch]
      rcases ih a with ⟨h1, h2, hl, hc, hs⟩
      have hlbl : ¬ keyOfEvent e = some a.1 := fun hh => hmatch (Eq.symm hh)
      refine ⟨h1, h2, ?_, ?_, ?_⟩ <;> simp [hl, hc, hs, hlbl]

/-- The counting pass acts independently on each seeded entry (the seeded
keys are distinct). -/
theorem engFold_eq_map (es : List ChangelogElement) (m : List (String × PostSummary))
    (h : (m.map (·.1)).Nodup) :
    es.foldl emBump m
      = m.map fun a =>
          es.foldl (fun b e => if (some b.1 : Option String) = keyOfEvent e
            then (b.1, bumpSummary e b.2) else b) a := by
  have hfun : es.foldl emBump m
      = es.foldl (fun acc e =>
          updateFirst (fun kv => decide ((some kv.1 : Option String) = keyOfEvent e))
            (fun kv => (kv.1, bumpSummary e kv.2)) acc) m := by
    refine List.foldl_ext _ _ m ?_
    intro acc e _
    exact emBump_eq_updateFirst acc e
  rw [hfun]
  have hnd : (m.map fun kv : String × PostSummary => (some kv.1 : Option String)).Nodup := by
    have h1 : (m.map fun kv : String × PostSummary => (some kv.1 : Option String))
        = (m.map (·.1)).map (fun s => (some s : Option String)) := by
      rw [List.map_map]
      rfl
    rw [h1]
    exact List.Nodup.map (fun a b hab => by simpa using hab) h
  exact foldl_updateFirst_eq_map (fun kv : String × PostSummary => (some kv.1 : Option String))
    keyOfEvent (fun e kv => (kv.1, bumpSummary e kv.2))
    (fun e a => rfl) es m hnd


theorem projectSummary_postId (p : PostSummary) : (projectSummary p).postId = p.postId := rfl

theorem projectSummary_likes (p : PostSummary) : (projectSummary p).likes = p.likes := rfl

theorem projectSummary_comments (p : PostSummary) :
    (projectSummary p).comments = p.comments := rfl

theorem projectSummary_shares (p : PostSummary) : (projectSummary p).shares = p.shares := rfl

/-! ## Claim C5: the engagement-per-post summary -/

/-- Concrete changelog realising the claim's scenario: one post creation and
two like creations referencing it on the following day. -/
def c5ScenarioChangelog : Option ChangelogData :=
  some ⟨some [⟨"ugcPosts", "CREATE", 0, none, none, "p1", none⟩,
    ⟨"socialActions/likes", "CREATE", 86400000, none, none, "l1", some ⟨none, some "p1"⟩⟩,
    ⟨"socialActions/likes", "CREATE", 86400000, none, none, "l2", some ⟨none, some "p1"⟩⟩]⟩

set_option maxRecDepth 8000 in
/-- C5 (amended): every summary stems from a `ugcPosts` CREATE event whose
`resourceId` is the summary's `postId`; each counter equals the number of
matching engagement CREATE events whose `activity.object` references that
identifier (with a falsy empty identifier never matched, which is the
amendment); `totalEngagement = likes + comments + shares`; the output is
sorted non-increasing by `totalEngagement` and has at most 10 entries; and
the one-post-two-likes scenario yields likes = 2, totalEngagement = 2. -/
theorem c5_engagement_join (cd : Option ChangelogData) :
    (∀ s ∈ calculateEngagementPerPost cd,
      (∃ e ∈ changelogElements cd, isPostCreate e = true ∧ e.resourceId = s.postId) ∧
      s.totalEngagement = s.likes + s.comments + s.shares ∧
      s.likes = (changelogElements cd).countP
        (fun e => decide (keyOfEvent e = some s.postId) && isLikeCreate e) ∧
      s.comments = (changelogElements cd).countP
        (fun e => decide (keyOfEvent e = some s.postId) && isCommentCreate e) ∧
      s.shares = (changelogElements cd).countP
        (fun e => decide (keyOfEvent e = some s.postId) && isShareCreate e)) ∧
    (calculateEngagementPerPost cd).Pairwise
      (fun a b => b.totalEngagement ≤ a.totalEngagement) ∧
    (calculateEngagementPerPost cd).length ≤ 10 ∧
    calculateEngagementPerPost c5ScenarioChangelog
      = [⟨"p1", "Post content", 2, 0, 0, 0, 2⟩] := by
  refine ⟨?_, ?_, ?_, by decide⟩
  · intro s hs
    have hs1 : s ∈ sortDescBy (·.totalEngagement)
        ((((changelogElements cd).foldl emBump
          (seedMap ((changelogElements cd).filter isPostCreate))).map (·.2)).map
            projectSummary) := (List.take_sublist 10 _).subset hs
    have hs2 : s ∈ (((changelogElements cd).foldl emBump
        (seedMap ((changelogElements cd).filter isPostCreate))).map (·.2)).map
          projectSummary := (sortDescBy_perm _ _).mem_iff.mp hs1
    rcases List.mem_map.mp hs2 with ⟨p, hp, rfl⟩
    rcases List.mem_map.mp hp with ⟨a, ha, rfl⟩
    rw [engFold_eq_map _ _ (seedMap_keys_nodup _)] at ha
    rcases List.mem_map.mp ha with ⟨a0, ha0, rfl⟩
    rcases seedMap_mem _ _ ha0 with ⟨post, hpost, rfl⟩
    rcases engCell (changelogElements cd) (post.resourceId, seedSummary post) with
      ⟨h1, h2, hl, hc, hsh⟩
    rcases List.mem_filter.mp hpost with ⟨hpe, hpc⟩
    refine ⟨⟨post, hpe, hpc, ?_⟩, rfl, ?_, ?_, ?_⟩
    · rw [projectSummary_postId, h2]
      rfl
    · rw [projectSummary_likes, projectSummary_postId, h2]
      simpa [seedSummary] using hl
    · rw [projectSummary_comments, projectSummary_postId, h2]
      simpa [seedSummary] using hc
    · rw [projectSummary_shares, projectSummary_postId, h2]
      simpa [seedSummary] using hsh
  · exact List.Pairwise.sublist (List.take_sublist 10 _)
      (sortDescBy_pairwise (fun s : PostOut => s.totalEngagement) _)
  · exact List.length_take_le 10 _

/-- Concrete changelog for the C5 counterexample: a post creation whose
`resourceId` is the empty string and a like whose `activity.object` is that
same empty string. -/
def c5EmptyIdChangelog : Option ChangelogData :=
  some ⟨some [⟨"ugcPosts", "CREATE", 0, none, none, "", none⟩,
    ⟨"socialActions/likes", "CREATE", 0, none, none, "l", some ⟨none, some ""⟩⟩]⟩

set_option maxRecDepth 8000 in
/-- C5 counterexample: the like's `activity.object` equals the seeded post's
`resourceId` (both are `""`), yet the summary keeps `likes = 0`, because the
falsy empty identifier is skipped by the `if (postId && ...)` guard — so
"each like CREATE event whose activity.object equals a seeded post's
resourceId increments that post's counter" fails as stated. -/
theorem c5_empty_id_counterexample :
    ((⟨"socialActions/likes", "CREATE", 0, none, none, "l", some ⟨none, some ""⟩⟩ :
        ChangelogElement).activity.bind (·.object) = some "") ∧
      ((⟨"ugcPosts", "CREATE", 0, none, none, "", none⟩ :
        ChangelogElement).resourceId = "") ∧
      calculateEngagementPerPost c5EmptyIdChangelog
        = [⟨"", "Post content", 0, 0, 0, 0, 0⟩] := by
  refine ⟨rfl, rfl, ?_⟩
  decide

set_option maxRecDepth 8000 in
/-- Witness for C5: in the scenario changelog the summary `("p1", likes 2)`
indeed stems from a post-creation event with `resourceId = "p1"`. -/
theorem c5_engagement_join_witness :
    ∃ e ∈ changelogElements c5ScenarioChangelog,
      isPostCreate e = true
        ∧ e.resourceId = (⟨"p1", "Post content", 2, 0, 0, 0, 2⟩ : PostOut).postId :=
  ((c5_engagement_join c5ScenarioChangelog).1 ⟨"p1", "Post content", 2, 0, 0, 0, 2⟩
    (by decide)).1

/-! ## Claims C6 and C7: the handler -/

/-- C6 (amended): for every non-OPTIONS request, the handler returns 401 with
body `error: "No authorization token"` exactly when the authorization header
is absent or the empty string (the `!authorization` guard treats both as
falsy), and in that case no upstream fetch is performed. -/
theorem c6_auth_gate (event : HandlerEvent) (u : Upstream) (pdate : String → Int)
    (now : Int) (hm : ¬ event.httpMethod = "OPTIONS") :
    (((handler event u pdate now).statusCode = 401 ∧
        (handler event u pdate now).body
          = some (.errorMessage "No authorization token"))
      ↔ (event.authorization = none ∨ event.authorization = some "")) ∧
    ((event.authorization = none ∨ event.authorization = some "") →
      (handler event u pdate now).fetches = []) := by
  unfold handler
  rw [if_neg hm]
  rcases ha : event.authorization with _ | tok
  · simp
  · by_cases ht : tok = ""
    · subst ht
      simp
    · simp [ht]

/-- C6 counterexample: a request whose authorization header is present but
empty is also answered with the 401 "No authorization token" response, so
"401 if and only if the header is absent" fails as stated. -/
theorem c6_empty_auth_counterexample :
    (handler ⟨"GET", some "", none⟩ emptyUpstream (fun _ => 0) 0).statusCode = 401 ∧
      (handler ⟨"GET", some "", none⟩ emptyUpstream (fun _ => 0) 0).body
        = some (.errorMessage "No authorization token") ∧
      ¬ (⟨"GET", some "", none⟩ : HandlerEvent).authorization = none := by
  refine ⟨rfl, rfl, by simp⟩

/-- Witness for C6: a GET request with no authorization header is answered
401 with the no-token error body. -/
theorem c6_auth_gate_witness :
    (handler ⟨"GET", none, none⟩ emptyUpstream (fun _ => 0) 0).statusCode = 401 ∧
      (handler ⟨"GET", none, none⟩ emptyUpstream (fun _ => 0) 0).body
        = some (.errorMessage "No authorization token") :=
  ((c6_auth_gate ⟨"GET", none, none⟩ emptyUpstream (fun _ => 0) 0
    (by decide)).1).mpr (Or.inl rfl)

/-! ### Null-input behaviour of the aggregators -/

theorem trend_none_zero (tr : String) (now : Int) :
    ∀ d ∈ calculatePostsEngagementsTrend none tr now,
      d.posts = 0 ∧ d.likes = 0 ∧ d.comments = 0 ∧ d.totalEngagement = 0 := by
  intro d hd
  have hd2 : d ∈ (initialTrendRange (trendDays tr) (dayOfMs now)).map fun b =>
      (⟨b.date, b.posts, b.likes, b.comments,
        b.likes + b.comments + b.shares⟩ : TrendEntry) := hd
  rcases List.mem_map.mp hd2 with ⟨b, hb, rfl⟩
  rcases List.mem_map.mp hb with ⟨j, hj, rfl⟩
  exact ⟨rfl, rfl, rfl, rfl⟩

theorem growthLoop_nil_zero (pdate : String → Int) :
    ∀ (n : Nat) (d : Int), ∀ g ∈ growthLoop [] pdate 0 d n,
      g.totalConnections = 0 ∧ g.newConnections = 0
  | 0, _, g, hg => absurd hg (List.not_mem_nil g)
  | n + 1, d, g, hg => by
    simp only [growthLoop, List.filter_nil, List.length_nil, List.mem_cons] at hg
    rcases hg with h | h
    · subst h
      exact ⟨rfl, rfl⟩
    · exact growthLoop_nil_zero pdate n (d + 1) g h

theorem growth_none_zero (tr : String) (pdate : String → Int) (now : Int) :
    ∀ g ∈ calculateConnectionsGrowth none tr pdate now,
      g.totalConnections = 0 ∧ g.newConnections = 0 := by
  intro g hg
  exact growthLoop_nil_zero pdate (trendDays tr + 1) (dayOfMs now - trendDays tr) g hg

theorem messages_none_zero (now : Int) :
    ∀ m ∈ calculateMessagesSentReceived none now, m.sent = 0 ∧ m.received = 0 := by
  intro m hm
  have hm2 : m ∈ (initialMessageRange (dayOfMs now)).map fun b =>
      (⟨monthDay b.date, b.sent, b.received⟩ : MessageEntry) := hm
  rcases List.mem_map.mp hm2 with ⟨b, hb, rfl⟩
  rcases List.mem_map.mp hb with ⟨j, hj, rfl⟩
  exact ⟨rfl, rfl⟩

/-- C7: with every upstream resource null, each aggregator returns its
zero-valued / empty-collection result (dense zero-filled day series for the
bucketers, empty lists for the ranked outputs) and the response is still a
200 carrying the assembled analytics object. -/
theorem c7_null_resilience (event : HandlerEvent) (pdate : String → Int) (now : Int)
    (hm : ¬ event.httpMethod = "OPTIONS") (tok : String)
    (ha : event.authorization = some tok) (ht : ¬ tok = "") :
    (handler event emptyUpstream pdate now).statusCode = 200 ∧
    (handler event emptyUpstream pdate now).body
      = some (.analytics (assembleAnalytics emptyUpstream
          (requestTimeRange event.queryStringParameters) pdate now)) ∧
    (∀ tr : String,
      (assembleAnalytics emptyUpstream tr pdate now).postTypesBreakdown = [] ∧
      (assembleAnalytics emptyUpstream tr pdate now).topHashtags = [] ∧
      (assembleAnalytics emptyUpstream tr pdate now).engagementPerPost = [] ∧
      (assembleAnalytics emptyUpstream tr pdate now).audienceDistribution = ⟨[], [], []⟩ ∧
      (∀ d ∈ (assembleAnalytics emptyUpstream tr pdate now).postsEngagementsTrend,
        d.posts = 0 ∧ d.likes = 0 ∧ d.comments = 0 ∧ d.totalEngagement = 0) ∧
      (∀ g ∈ (assembleAnalytics emptyUpstream tr pdate now).connectionsGrowth,
        g.totalConnections = 0 ∧ g.newConnections = 0) ∧
      (∀ m ∈ (assembleAnalytics emptyUpstream tr pdate now).messagesSentReceived,
        m.sent = 0 ∧ m.received = 0)) := by
  have hh : handler event emptyUpstream pdate now
      = ⟨200, some (.analytics (assembleAnalytics emptyUpstream
          (requestTimeRange event.queryStringParameters) pdate now)), upstreamRequests⟩ := by
    unfold handler
    rw [if_neg hm, ha]
    simp [ht]
  refine ⟨by rw [hh], by rw [hh], ?_⟩
  intro tr
  exact ⟨rfl, rfl, rfl, rfl, trend_none_zero tr now, growth_none_zero tr pdate now,
    messages_none_zero now⟩

/-- Witness for C7: a GET request with a non-empty token against an
all-failed upstream environment is answered 200. -/
theorem c7_null_resilience_witness :
    (handler ⟨"GET", some "token", none⟩ emptyUpstream (fun _ => 0) 0).statusCode = 200 :=
  (c7_null_resilience ⟨"GET", some "token", none⟩ (fun _ => 0) 0 (by decide) "token" rfl
    (by decide)).1
